import Mathlib

/-!
# vf_zmqimg: filter video frames through a ZMQ pipe

A shallow embedding of `libavfilter/vf_zmqimg.c` and the properties of its
header construction, request/reply exchange, geometry and format selection.

Machine integers are `Int` (C `int`) and `Nat` (C `size_t`); the conversions
the C code performs implicitly are written out (`int32`, `size_t`).
The `int[4]` arrays of the context are functions of the index, the arrays of a
frame are lists read with `getD`, and a NULL plane pointer is `none`.  Calls into
libzmq, libavutil and the filter framework are answered by an environment record
(`Env`) and recorded in a trace of events.
-/

namespace ZmqImg

/-! ## Data model -/

/-- The private context of the filter (`ZMQContext`), without the socket handles. -/
structure ZMQContext where
  max_step : Nat → Int
  planewidth : Nat → Int
  planeheight : Nat → Int

/-- The fields of an `AVFrame` the filter reads: plane pointers and line sizes. -/
structure AVFrame where
  data : List (Option (List Nat))
  linesize : List Int
  deriving DecidableEq

/-- Wrap a mathematical integer to a C `int` (32 bit, two's complement). -/
def int32 (x : Int) : Int := (x + 2147483648) % 4294967296 - 2147483648

/-- Conversion of a C `int` to `size_t` (64 bit). -/
def size_t (x : Int) : Nat := (x % 18446744073709551616).toNat

/-- A value that a C `int` holds. -/
def IsInt (x : Int) : Prop := -2147483648 ≤ x ∧ x ≤ 2147483647

instance (x : Int) : Decidable (IsInt x) := by unfold IsInt; infer_instance

/-! ## The header of a request (filter_frame, lines 130-142) -/

/-- The loop `for (nplanes = 0; nplanes < 4 && data[nplanes] && linesize[nplanes]; nplanes++)`. -/
def count_planes_loop (ioframe : AVFrame) : Nat → Nat → Nat
  | 0, nplanes => nplanes
  | fuel + 1, nplanes =>
    if nplanes < 4 ∧ (ioframe.data.getD nplanes none).isSome = true
        ∧ ioframe.linesize.getD nplanes 0 ≠ 0 then
      count_planes_loop ioframe fuel (nplanes + 1)
    else nplanes

/-- The active plane count of the working frame; five rounds always reach the loop exit. -/
def count_planes (ioframe : AVFrame) : Nat := count_planes_loop ioframe 5 0

/-- The call `sprintf(&buf[bufp], s)`: `s` is written at offset `bufp` and terminates the
text; the result is the buffer text and the number of characters written. -/
def sprintf_at (buf : List Char) (bufp : Nat) (s : String) : List Char × Nat :=
  (buf.take bufp ++ s.data, s.length)

/-- The text `sprintf` produces for the format `"(%d %d %d %d)"`. -/
def fmt_plane (w h step linesize : Int) : String :=
  "(" ++ toString w ++ " " ++ toString h ++ " " ++ toString step ++ " "
    ++ toString linesize ++ ")"

/-- One round of the header loop: append the group of `plane` at `bufp`. -/
def header_step (zmq : ZMQContext) (ioframe : AVFrame) (st : List Char × Nat) (plane : Nat) :
    List Char × Nat :=
  let w := zmq.planewidth plane
  let h := zmq.planeheight plane
  let step := zmq.max_step plane
  let linesize := ioframe.linesize.getD plane 0
  let r := sprintf_at st.1 st.2 (fmt_plane w h step linesize)
  (r.1, st.2 + r.2)

/-- The header construction (lines 134-142): `buf` and `bufp` after the opening `sprintf`,
the loop over the planes `0 .. nplanes - 1` and the closing `sprintf`. -/
def build_header (zmq : ZMQContext) (ioframe : AVFrame) (nplanes : Nat) : List Char × Nat :=
  let r0 := sprintf_at [] 0 "("
  let st := (List.range nplanes).foldl (header_step zmq ioframe) (r0.1, r0.2)
  let r1 := sprintf_at st.1 st.2 ")"
  (r1.1, st.2 + r1.2)

/-- The header text that filter_frame sends for a working frame. -/
def header_text (zmq : ZMQContext) (ioframe : AVFrame) : String :=
  String.mk (build_header zmq ioframe (count_planes ioframe)).1

/-! ## The exchange (filter_frame, lines 110-206) -/

/-- The flag ZMQ_SNDMORE of zmq.h ("more parts follow"). -/
def ZMQ_SNDMORE : Int := 2

/-- Modelled from the spec: the error kind `ExternalError`, the constant AVERROR_EXTERNAL of
libavutil/error.h, which is not under src/; the value is that of FFERRTAG(0xF8,'E','X','T'). -/
def AVERROR_EXTERNAL : Int := -1415071224

/-- Modelled from the spec: the error kind `AllocationError`, the value of AVERROR(ENOMEM)
from libavutil/error.h, which is not under src/. -/
def AVERROR_ENOMEM : Int := -12

/-- The two frames filter_frame owns: its argument `in` and the working frame `ioframe`. -/
inductive FrameId where
  | input
  | ioframe
  deriving DecidableEq

/-- What filter_frame does to the outside world, in program order. -/
inductive Event where
  | send (part : List Nat) (len : Nat) (flags : Int) (ret : Int)
  | recv (plane : Nat) (len : Nat) (ret : Int)
  | getsockopt (plane : Nat) (ret : Int) (hasmore : Int)
  | log (msg : String)
  | frame_free (which : FrameId)
  | ff_filter_frame (frame : AVFrame)
  deriving DecidableEq

/-- The answers of the collaborators during one call of filter_frame: the buffer pool, the
frame copy routines, the transport (return values of `zmq_send`, `zmq_recv` and
`zmq_getsockopt`, the reply part a receive delivers, the flag a query stores) and the
downstream stage. -/
structure Env where
  get_video_buffer : Option AVFrame
  frame_copy_props : AVFrame → AVFrame → AVFrame
  frame_copy : AVFrame → AVFrame → AVFrame
  send_hdr_ret : Int
  send_plane_ret : Nat → Int
  recv_ret : Nat → Int
  recv_msg : Nat → List Nat
  getsockopt_ret : Nat → Int
  hasmore : Nat → Int
  filter_frame_ret : Int

/-- The return value of filter_frame and the trace of its effects. -/
structure Result where
  ret : Int
  trace : List Event
  deriving DecidableEq

/-- The buffer `data[plane]` points to (empty for a NULL pointer). -/
def plane_buf (f : AVFrame) (plane : Nat) : List Nat :=
  (f.data.getD plane none).getD []

/-- The value of `size_t datasize = h * linesize` for a plane. -/
def plane_datasize (zmq : ZMQContext) (ioframe : AVFrame) (plane : Nat) : Nat :=
  let h := zmq.planeheight plane
  let linesize := ioframe.linesize.getD plane 0
  size_t (int32 (h * linesize))

/-- The send loop (lines 153-165) over the planes still to send, started by filter_frame
with the planes `0 .. nplanes - 1` in ascending order; the flag tells whether every plane
was sent (`false` is the jump to `err`). -/
def send_planes (e : Env) (zmq : ZMQContext) (ioframe : AVFrame) (nplanes : Nat) :
    List Nat → List Event × Bool
  | [] => ([], true)
  | plane :: rest =>
    let datasize := plane_datasize zmq ioframe plane
    let flags : Int := if (plane : Int) = (nplanes : Int) - 1 then 0 else ZMQ_SNDMORE
    let ret := e.send_plane_ret plane
    let ev := Event.send ((plane_buf ioframe plane).take datasize) datasize flags ret
    if size_t ret ≠ datasize then
      ([ev, Event.log "Failed to send plane message part"], false)
    else
      let r := send_planes e zmq ioframe nplanes rest
      (ev :: r.1, r.2)

/-- The effect of `zmq_recv(sock, buf, len, 0)` on `buf` when a part `msg` arrives:
the first `len` bytes of the part overwrite the start of the buffer. -/
def recv_into (buf : List Nat) (len : Nat) (msg : List Nat) : List Nat :=
  msg.take len ++ buf.drop (min len msg.length)

/-- The working frame after the receive for `plane`; a failed receive stores nothing. -/
def recv_store (e : Env) (ioframe : AVFrame) (plane : Nat) (len : Nat) : AVFrame :=
  if e.recv_ret plane = -1 then ioframe
  else
    match ioframe.data.getD plane none with
    | none => ioframe
    | some buf =>
      { ioframe with data := ioframe.data.set plane (some (recv_into buf len (e.recv_msg plane))) }

/-- The receive loop (lines 169-197) over the planes still to receive, started by
filter_frame with the planes `0 .. nplanes - 1` in ascending order; the frame is the working
frame with the parts received so far stored, and `none` is the jump to `err`. -/
def recv_planes (e : Env) (zmq : ZMQContext) (nplanes : Nat) :
    List Nat → AVFrame → List Event × Option AVFrame
  | [], ioframe => ([], some ioframe)
  | plane :: rest, ioframe =>
    let needmore : Int := if (plane : Int) ≠ (nplanes : Int) - 1 then 1 else 0
    let datasize := plane_datasize zmq ioframe plane
    let ret := e.recv_ret plane
    let stored := recv_store e ioframe plane datasize
    let ev := Event.recv plane datasize ret
    if size_t ret ≠ datasize then
      ([ev, Event.log "Failed to receive plane message part"], none)
    else
      let q := Event.getsockopt plane (e.getsockopt_ret plane) (e.hasmore plane)
      if e.getsockopt_ret plane = -1 then
        ([ev, q, Event.log "Failed to get socket option for plane message part"], none)
      else if e.hasmore plane ≠ needmore then
        ([ev, q, Event.log "Mismatch in number of message parts"], none)
      else
        let r := recv_planes e zmq nplanes rest stored
        (ev :: q :: r.1, r.2)

/-- The exchange on the working frame: filter_frame from line 130 on. -/
def exchange (e : Env) (zmq : ZMQContext) (ioframe : AVFrame) : Result :=
  let nplanes := count_planes ioframe
  let buf := (build_header zmq ioframe nplanes).1
  let hdr := Event.send (buf.map Char.toNat) buf.length ZMQ_SNDMORE e.send_hdr_ret
  let err := [Event.frame_free FrameId.ioframe, Event.frame_free FrameId.input]
  if e.send_hdr_ret = -1 then
    ⟨AVERROR_EXTERNAL, hdr :: Event.log "Failed to send meta message part" :: err⟩
  else
    let s := send_planes e zmq ioframe nplanes (List.range nplanes)
    if s.2 = false then
      ⟨AVERROR_EXTERNAL, hdr :: s.1 ++ err⟩
    else
      let r := recv_planes e zmq nplanes (List.range nplanes) ioframe
      match r.2 with
      | none => ⟨AVERROR_EXTERNAL, hdr :: s.1 ++ r.1 ++ err⟩
      | some out =>
        ⟨e.filter_frame_ret,
          hdr :: s.1 ++ r.1 ++ [Event.frame_free FrameId.input, Event.ff_filter_frame out]⟩

/-- The function filter_frame: allocation and copy of the working frame (lines 122-128),
then the exchange. -/
def filter_frame (e : Env) (zmq : ZMQContext) (inp : AVFrame) : Result :=
  match e.get_video_buffer with
  | none => ⟨AVERROR_ENOMEM, []⟩
  | some fresh => exchange e zmq (e.frame_copy (e.frame_copy_props fresh inp) inp)

/-- The working frame filter_frame operates on, when the buffer pool supplies one. -/
def working_frame (e : Env) (inp : AVFrame) : Option AVFrame :=
  e.get_video_buffer.map (fun fresh => e.frame_copy (e.frame_copy_props fresh inp) inp)

/-! ### Reading a trace -/

/-- The parts handed to `zmq_send`, each with the length passed and its flags, in order. -/
def sent_parts (t : List Event) : List (List Nat × Nat × Int) :=
  t.filterMap (fun ev =>
    match ev with
    | Event.send part len flags _ => some (part, len, flags)
    | _ => none)

/-- The planes for which `zmq_recv` was called, in order. -/
def recv_calls (t : List Event) : List Nat :=
  t.filterMap (fun ev =>
    match ev with
    | Event.recv plane _ _ => some plane
    | _ => none)

/-- The frames handed downstream with `ff_filter_frame`, in order. -/
def forwarded (t : List Event) : List AVFrame :=
  t.filterMap (fun ev =>
    match ev with
    | Event.ff_filter_frame f => some f
    | _ => none)

/-- How often `av_frame_free` was called on a frame. -/
def free_count (which : FrameId) (t : List Event) : Nat :=
  t.count (Event.frame_free which)

/-- The flags of the parts `zmq_send` accepted (its return value was not -1), in order. -/
def accepted_flags (t : List Event) : List Int :=
  t.filterMap (fun ev =>
    match ev with
    | Event.send _ _ flags ret => if ret = -1 then none else some flags
    | _ => none)

/-- The request on the channel is complete: a part was accepted and the last accepted part
was sent without the continuation flag. -/
def request_completed (t : List Event) : Prop :=
  (accepted_flags t).getLast? = some 0

instance (t : List Event) : Decidable (request_completed t) := by
  unfold request_completed; infer_instance

/-- The values the RCVMORE queries stored, for the queries that succeeded, in order. -/
def more_flags (t : List Event) : List Int :=
  t.filterMap (fun ev =>
    match ev with
    | Event.getsockopt _ ret hasmore => if ret = -1 then none else some hasmore
    | _ => none)

/-- The reply is read to its end: a query succeeded and the last one reported that no
further part follows. -/
def reply_drained (t : List Event) : Prop :=
  (more_flags t).getLast? = some 0

instance (t : List Event) : Decidable (reply_drained t) := by
  unfold reply_drained; infer_instance

/-- The checks of the send loop pass for a plane: `zmq_send` returns `datasize`. -/
def send_ok (e : Env) (zmq : ZMQContext) (ioframe : AVFrame) (plane : Nat) : Prop :=
  size_t (e.send_plane_ret plane) = plane_datasize zmq ioframe plane

instance (e : Env) (zmq : ZMQContext) (ioframe : AVFrame) (plane : Nat) :
    Decidable (send_ok e zmq ioframe plane) := by
  unfold send_ok; infer_instance

/-- Every send of the request succeeds: the header send does not return -1 and every plane
send returns the size asked for. -/
def sends_succeed (e : Env) (zmq : ZMQContext) (ioframe : AVFrame) : Prop :=
  e.send_hdr_ret ≠ -1 ∧ ∀ plane, plane < count_planes ioframe → send_ok e zmq ioframe plane

instance (e : Env) (zmq : ZMQContext) (ioframe : AVFrame) :
    Decidable (sends_succeed e zmq ioframe) := by
  unfold sends_succeed; infer_instance

/-- The event of the header send: the text, its `strlen` and the continuation flag. -/
def hdr_event (e : Env) (zmq : ZMQContext) (ioframe : AVFrame) : Event :=
  Event.send ((build_header zmq ioframe (count_planes ioframe)).1.map Char.toNat)
    (build_header zmq ioframe (count_planes ioframe)).1.length ZMQ_SNDMORE e.send_hdr_ret

/-- The event of the send of a plane in the send loop. -/
def send_event (e : Env) (zmq : ZMQContext) (ioframe : AVFrame) (nplanes plane : Nat) : Event :=
  Event.send ((plane_buf ioframe plane).take (plane_datasize zmq ioframe plane))
    (plane_datasize zmq ioframe plane)
    (if (plane : Int) = (nplanes : Int) - 1 then 0 else ZMQ_SNDMORE) (e.send_plane_ret plane)

/-- The events of a round of the receive loop in which every check passes. -/
def recv_events (e : Env) (zmq : ZMQContext) (ioframe : AVFrame) (plane : Nat) : List Event :=
  [Event.recv plane (plane_datasize zmq ioframe plane) (e.recv_ret plane),
    Event.getsockopt plane (e.getsockopt_ret plane) (e.hasmore plane)]

/-- The working frame after the receives for the planes of a list, in order. -/
def recv_all (e : Env) (zmq : ZMQContext) (l : List Nat) (ioframe : AVFrame) : AVFrame :=
  l.foldl (fun f plane => recv_store e f plane (plane_datasize zmq f plane)) ioframe

/-- The checks of the receive loop pass for a plane: the size returned, the query and the
flag it stores. -/
def recv_ok (e : Env) (zmq : ZMQContext) (ioframe : AVFrame) (nplanes plane : Nat) : Prop :=
  size_t (e.recv_ret plane) = plane_datasize zmq ioframe plane ∧ e.getsockopt_ret plane ≠ -1 ∧
    e.hasmore plane = (if (plane : Int) ≠ (nplanes : Int) - 1 then 1 else 0)

instance (e : Env) (zmq : ZMQContext) (ioframe : AVFrame) (nplanes plane : Nat) :
    Decidable (recv_ok e zmq ioframe nplanes plane) := by
  unfold recv_ok; infer_instance

/-- The byte count `stride * height` of a plane, as a mathematical integer. -/
def plane_bytes (zmq : ZMQContext) (ioframe : AVFrame) (plane : Nat) : Int :=
  ioframe.linesize.getD plane 0 * zmq.planeheight plane

/-- The plane sizes are sizes: for every active plane `stride * height` is a non-negative
C `int`, so `h * linesize` does not overflow. -/
def SizesFit (zmq : ZMQContext) (ioframe : AVFrame) : Prop :=
  ∀ plane, plane < count_planes ioframe →
    0 ≤ plane_bytes zmq ioframe plane ∧ plane_bytes zmq ioframe plane ≤ 2147483647

instance (zmq : ZMQContext) (ioframe : AVFrame) : Decidable (SizesFit zmq ioframe) := by
  unfold SizesFit; infer_instance

/-- The plane buffers hold the planes: every active plane has at least `datasize` bytes. -/
def BuffersHold (zmq : ZMQContext) (ioframe : AVFrame) : Prop :=
  ∀ plane, plane < count_planes ioframe →
    plane_datasize zmq ioframe plane ≤ (plane_buf ioframe plane).length

instance (zmq : ZMQContext) (ioframe : AVFrame) : Decidable (BuffersHold zmq ioframe) := by
  unfold BuffersHold; infer_instance

/-! ### A reply as a multi-part message -/

/-- The transport answers of a call that receives the multi-part message `reply`: the k-th
receive returns the size of part k and delivers it, and the k-th query reports whether a
part follows part k. -/
def reply_env (e : Env) (reply : List (List Nat)) : Env :=
  { e with
    recv_ret := fun k => ((reply.getD k []).length : Int)
    recv_msg := fun k => reply.getD k []
    getsockopt_ret := fun _ => 0
    hasmore := fun k => if k + 1 < reply.length then 1 else 0 }

/-- The plane parts of the request for a working frame: `datasize` bytes of each plane. -/
def request_planes (zmq : ZMQContext) (ioframe : AVFrame) : List (List Nat) :=
  (List.range (count_planes ioframe)).map
    (fun plane => (plane_buf ioframe plane).take (plane_datasize zmq ioframe plane))

/-! ## Geometry (config_props, lines 94-108) -/

/-- A component of a pixel format (`AVComponentDescriptor`): the plane it lives in. -/
structure AVComponentDescriptor where
  plane : Nat

/-- The fields of `AVPixFmtDescriptor` the filter reads. -/
structure AVPixFmtDescriptor where
  flags : Nat
  log2_chroma_w : Nat
  log2_chroma_h : Nat
  comp : Nat → AVComponentDescriptor

/-- Modelled from the spec: the macro AV_CEIL_RSHIFT of libavutil/common.h, which is not
under src/: the chroma shift "with ceiling rounding", a right shift of a C `int` that rounds
towards plus infinity, computed as the negated arithmetic shift of the negated value. -/
def AV_CEIL_RSHIFT (a : Int) (b : Nat) : Int :=
  int32 (-(int32 (-a) >>> b))

/-- The function config_props: the context after the call and the return value.
`max_pixsteps` is what av_image_fill_max_pixsteps stores for the format. -/
def config_props (pix_desc : AVPixFmtDescriptor) (max_pixsteps : Nat → Int) (w h : Int)
    (zmq : ZMQContext) : ZMQContext × Int :=
  let hsub := pix_desc.log2_chroma_w
  let vsub := pix_desc.log2_chroma_h
  let z0 : ZMQContext := { zmq with max_step := max_pixsteps }
  let pw3 := Function.update z0.planewidth 3 w
  let pw0 := Function.update pw3 0 w
  let pw2 := Function.update pw0 2 (AV_CEIL_RSHIFT w hsub)
  let pw1 := Function.update pw2 1 (AV_CEIL_RSHIFT w hsub)
  let ph3 := Function.update z0.planeheight 3 h
  let ph0 := Function.update ph3 0 h
  let ph2 := Function.update ph0 2 (AV_CEIL_RSHIFT h vsub)
  let ph1 := Function.update ph2 1 (AV_CEIL_RSHIFT h vsub)
  ({ z0 with planewidth := pw1, planeheight := ph1 }, 0)

/-! ## Format selection (query_formats, lines 76-92) -/

/-- The test of lines 83-86: the format is hardware accelerated, or a bitstream format, or its
chroma shifts differ while its first two components share a plane.  `hwaccel` and
`bitstream` are the masks AV_PIX_FMT_FLAG_HWACCEL and AV_PIX_FMT_FLAG_BITSTREAM. -/
def rejected (hwaccel bitstream : Nat) (desc : AVPixFmtDescriptor) : Bool :=
  (desc.flags &&& hwaccel != 0) || (desc.flags &&& bitstream != 0) ||
    (desc.log2_chroma_w != desc.log2_chroma_h && (desc.comp 0).plane == (desc.comp 1).plane)

/-- The loop of query_formats over the descriptors from `fmt` on (`descs` are the catalog
entries `fmt`, `fmt + 1`, ... up to the first format without a descriptor); `add_ret` is the
return value of ff_add_format for a format. -/
def query_formats_loop (hwaccel bitstream : Nat) (add_ret : Nat → Int) :
    List AVPixFmtDescriptor → Nat → List Nat → Except Int (List Nat)
  | [], _, pix_fmts => Except.ok pix_fmts
  | desc :: rest, fmt, pix_fmts =>
    if rejected hwaccel bitstream desc then
      query_formats_loop hwaccel bitstream add_ret rest (fmt + 1) pix_fmts
    else if add_ret fmt < 0 then Except.error (add_ret fmt)
    else query_formats_loop hwaccel bitstream add_ret rest (fmt + 1) (pix_fmts ++ [fmt])

/-- The function query_formats: the list handed to ff_set_common_formats, or the error of
ff_add_format. -/
def query_formats (hwaccel bitstream : Nat) (add_ret : Nat → Int)
    (catalog : List AVPixFmtDescriptor) : Except Int (List Nat) :=
  query_formats_loop hwaccel bitstream add_ret catalog 0 []

/-! ## Examples used as concrete inputs -/

/-- The context of a 176x144 frame with two planes, the second subsampled in both directions. -/
def zmq_qcif : ZMQContext :=
  { max_step := fun _ => 1
    planewidth := fun p => [176, 88, 88, 176].getD p 0
    planeheight := fun p => [144, 72, 72, 144].getD p 0 }

/-- A working frame with two planes of strides 176 and 88 (buffers left empty). -/
def frame_qcif : AVFrame :=
  { data := [some [], some [], none, none]
    linesize := [176, 88, 0, 0] }

/-- The context of a 4x2 frame whose second and third planes are 2x1. -/
def zmq_small : ZMQContext :=
  { max_step := fun _ => 1
    planewidth := fun p => [4, 2, 2, 4].getD p 0
    planeheight := fun p => [2, 1, 1, 2].getD p 0 }

/-- A working frame with two planes: eight bytes at stride 4 and two bytes at stride 2. -/
def frame_small : AVFrame :=
  { data := [some [1, 2, 3, 4, 5, 6, 7, 8], some [9, 10], none, none]
    linesize := [4, 2, 0, 0] }

/-- An environment whose pool supplies `f` (the copies leave it as it is), whose sends all
succeed for `frame_small`, and whose reply is the two-part message `[[11 .. 18], [19, 20]]`. -/
def env_small (f : AVFrame) : Env :=
  { get_video_buffer := some f
    frame_copy_props := fun dst _ => dst
    frame_copy := fun dst _ => dst
    send_hdr_ret := 20
    send_plane_ret := fun p => [8, 2].getD p 0
    recv_ret := fun p => [8, 2].getD p 0
    recv_msg := fun p => [[11, 12, 13, 14, 15, 16, 17, 18], [19, 20]].getD p []
    getsockopt_ret := fun _ => 0
    hasmore := fun p => [1, 0].getD p 0
    filter_frame_ret := 0 }

/-- The two-part reply of `env_small`. -/
def reply_small : List (List Nat) := [[11, 12, 13, 14, 15, 16, 17, 18], [19, 20]]

/-- A reply that ends after the part of plane 0. -/
def reply_short : List (List Nat) := [[11, 12, 13, 14, 15, 16, 17, 18]]

/-- A reply with a part after the part of the last plane. -/
def reply_long : List (List Nat) := [[11, 12, 13, 14, 15, 16, 17, 18], [19, 20], [21]]

/-- The environment `env_small` in which every receive returns the error value -1. -/
def env_recv_fails : Env :=
  { env_small frame_small with recv_ret := fun _ => -1 }

/-- The environment `env_small` with an exhausted buffer pool. -/
def env_nomem : Env :=
  { env_small frame_small with get_video_buffer := none }

/-- The environment `env_small` in which the send of every plane fails. -/
def env_send_fails : Env :=
  { env_small frame_small with send_plane_ret := fun _ => -1 }

/-- The environment `env_small` in which a further part follows every part received. -/
def env_extra_part : Env :=
  { env_small frame_small with hasmore := fun _ => 1 }

/-- A catalog of four descriptors for the masks 8 (hardware) and 4 (bitstream): a plain
format, a hardware format, a format with unequal shifts whose first two components share a
plane, and one with unequal shifts whose components lie in planes of their own. -/
def catalog_small : List AVPixFmtDescriptor :=
  [ { flags := 0, log2_chroma_w := 1, log2_chroma_h := 1, comp := fun _ => ⟨0⟩ },
    { flags := 8, log2_chroma_w := 1, log2_chroma_h := 1, comp := fun _ => ⟨0⟩ },
    { flags := 0, log2_chroma_w := 1, log2_chroma_h := 0, comp := fun _ => ⟨0⟩ },
    { flags := 0, log2_chroma_w := 1, log2_chroma_h := 0, comp := fun c => ⟨c⟩ } ]

/-- The descriptor of a format whose chroma planes are halved in both directions. -/
def desc_420 : AVPixFmtDescriptor :=
  { flags := 0, log2_chroma_w := 1, log2_chroma_h := 1, comp := fun c => ⟨c⟩ }

/-- The values the header prints are C `int`s. -/
def IntValues (zmq : ZMQContext) (ioframe : AVFrame) : Prop :=
  ∀ plane, plane < 4 → IsInt (zmq.planewidth plane) ∧ IsInt (zmq.planeheight plane) ∧
    IsInt (zmq.max_step plane) ∧ IsInt (ioframe.linesize.getD plane 0)

instance (zmq : ZMQContext) (ioframe : AVFrame) : Decidable (IntValues zmq ioframe) := by
  unfold IntValues; infer_instance

/-- The text of the groups of the planes below `n`, after the opening parenthesis. -/
def header_groups (zmq : ZMQContext) (ioframe : AVFrame) (n : Nat) : List Char :=
  '(' :: ((List.range n).map (fun plane =>
    (fmt_plane (zmq.planewidth plane) (zmq.planeheight plane) (zmq.max_step plane)
      (ioframe.linesize.getD plane 0)).data)).flatten

/-! ## Header: proofs -/

theorem count_planes_loop_le (f : AVFrame) :
    ∀ fuel n, n ≤ 4 → count_planes_loop f fuel n ≤ 4 := by
  intro fuel
  induction fuel with
  | zero => intro n hn; simpa [count_planes_loop] using hn
  | succ k ih =>
    intro n hn
    unfold count_planes_loop
    split
    · rename_i h
      exact ih (n + 1) (by omega)
    · exact hn

theorem count_planes_le (f : AVFrame) : count_planes f ≤ 4 :=
  count_planes_loop_le f 5 0 (by omega)

theorem header_fold (zmq : ZMQContext) (ioframe : AVFrame) (n : Nat) :
    (List.range n).foldl (header_step zmq ioframe) (['('], 1)
      = (header_groups zmq ioframe n, (header_groups zmq ioframe n).length) := by
  induction n with
  | zero => simp [header_groups]
  | succ k ih =>
    rw [List.range_succ, List.foldl_append, ih]
    have hg : header_groups zmq ioframe (k + 1) = header_groups zmq ioframe k ++
        (fmt_plane (zmq.planewidth k) (zmq.planeheight k) (zmq.max_step k)
          (ioframe.linesize.getD k 0)).data := by
      simp [header_groups, List.range_succ]
    rw [hg]
    simp only [List.foldl_cons, List.foldl_nil, header_step, sprintf_at, List.take_length,
      List.length_append, String.length]

theorem build_header_eq (zmq : ZMQContext) (ioframe : AVFrame) (n : Nat) :
    build_header zmq ioframe n
      = (header_groups zmq ioframe n ++ [')'], (header_groups zmq ioframe n).length + 1) := by
  have h0 : sprintf_at [] 0 "(" = (['('], 1) := rfl
  simp only [build_header, h0, header_fold]
  simp [sprintf_at, String.length]

theorem join_data (l : List String) (acc : String) :
    (l.foldl (fun r s => r ++ s) acc).data = acc.data ++ (l.map String.data).flatten := by
  induction l generalizing acc with
  | nil => simp
  | cons s t ih => simp [ih, String.data_append]

theorem string_join_data (l : List String) : (String.join l).data = (l.map String.data).flatten := by
  simp [String.join, join_data]

/-- C1: for every plane count the header text built by filter_frame is `(`, then for the
planes in ascending order the group `(w h step stride)` with the four integers in decimal and
nothing between the groups, then `)`; the active plane count is at most 4; and for the planes
(176,144,1,176) and (88,72,1,88) the header is `((176 144 1 176)(88 72 1 88))`. -/
theorem header_format (zmq : ZMQContext) (ioframe : AVFrame) :
    (∀ nplanes, String.mk (build_header zmq ioframe nplanes).1
      = "(" ++ String.join ((List.range nplanes).map (fun plane =>
          "(" ++ toString (zmq.planewidth plane) ++ " " ++ toString (zmq.planeheight plane)
            ++ " " ++ toString (zmq.max_step plane) ++ " "
            ++ toString (ioframe.linesize.getD plane 0) ++ ")")) ++ ")")
    ∧ header_text zmq ioframe = String.mk (build_header zmq ioframe (count_planes ioframe)).1
    ∧ count_planes ioframe ≤ 4
    ∧ header_text zmq_qcif frame_qcif = "((176 144 1 176)(88 72 1 88))" := by
  refine ⟨?_, rfl, count_planes_le ioframe, by decide⟩
  intro n
  apply String.ext
  simp [build_header_eq, header_groups, String.data_append, string_join_data, List.map_map,
    Function.comp_def, fmt_plane]

theorem nat_repr_length_le (m : Nat) (h : m ≤ 2147483648) : (toString m).length ≤ 10 :=
  Nat.repr_length m 10 (by decide) (by omega)

theorem int_text_length_le (x : Int) (h : IsInt x) : (toString x).length ≤ 11 := by
  obtain ⟨h1, h2⟩ := h
  cases x with
  | ofNat m =>
    have h2' : (m : Int) ≤ 2147483647 := h2
    have := nat_repr_length_le m (by omega)
    show (toString m).length ≤ 11
    omega
  | negSucc m =>
    have h1' : -2147483648 ≤ -((m : Int) + 1) := by rw [← Int.negSucc_eq]; exact h1
    have := nat_repr_length_le (m + 1) (by omega)
    show ("-" ++ toString (m + 1)).length ≤ 11
    have hm : "-".length = 1 := by decide
    rw [String.length_append, hm]
    omega

theorem fmt_plane_length_le (w h step linesize : Int) (hw : IsInt w) (hh : IsInt h)
    (hs : IsInt step) (hl : IsInt linesize) : (fmt_plane w h step linesize).length ≤ 49 := by
  have h1 := int_text_length_le w hw
  have h2 := int_text_length_le h hh
  have h3 := int_text_length_le step hs
  have h4 := int_text_length_le linesize hl
  have hp : "(".length = 1 := by decide
  have hsp : " ".length = 1 := by decide
  have hq : ")".length = 1 := by decide
  simp only [fmt_plane, String.length_append, hp, hsp, hq]
  omega

theorem header_groups_length_le (zmq : ZMQContext) (ioframe : AVFrame)
    (hv : IntValues zmq ioframe) (n : Nat) (hn : n ≤ 4) :
    (header_groups zmq ioframe n).length ≤ 1 + 49 * n := by
  induction n with
  | zero => simp [header_groups]
  | succ k ih =>
    have hg : header_groups zmq ioframe (k + 1) = header_groups zmq ioframe k ++
        (fmt_plane (zmq.planewidth k) (zmq.planeheight k) (zmq.max_step k)
          (ioframe.linesize.getD k 0)).data := by
      simp [header_groups, List.range_succ]
    obtain ⟨a, b, c, d⟩ := hv k (by omega)
    have hf := fmt_plane_length_le _ _ _ _ a b c d
    have ih' := ih (by omega)
    rw [hg, List.length_append]
    simp only [String.length] at hf
    omega

theorem header_text_length_le (zmq : ZMQContext) (ioframe : AVFrame)
    (hv : IntValues zmq ioframe) : (header_text zmq ioframe).length + 1 ≤ 199 := by
  have hn := count_planes_le ioframe
  have hg := header_groups_length_le zmq ioframe hv (count_planes ioframe) hn
  simp only [header_text, build_header_eq, String.length, List.length_append, List.length_cons,
    List.length_nil]
  omega

/-- C9 (as corrected): when the values printed are C `int`s, the header text written by
filter_frame, with its terminating NUL, takes at most 199 bytes of the 256-byte buffer,
for every active plane count (which is at most 4). -/
theorem header_fits_buffer (zmq : ZMQContext) (ioframe : AVFrame)
    (hv : IntValues zmq ioframe) :
    count_planes ioframe ≤ 4 ∧ (header_text zmq ioframe).length + 1 ≤ 199 :=
  ⟨count_planes_le ioframe, header_text_length_le zmq ioframe hv⟩

/-- Witness for the header bound of C9, at the 176x144 example. -/
theorem header_fits_buffer_witness :
    IntValues zmq_qcif frame_qcif ∧
      (count_planes frame_qcif ≤ 4 ∧ (header_text zmq_qcif frame_qcif).length + 1 ≤ 199) :=
  ⟨by decide, header_fits_buffer zmq_qcif frame_qcif (by decide)⟩

/-- C9 as stated is false: no plane count and no 32-bit values make the header text with its
terminating NUL longer than the 256 bytes of the buffer. -/
theorem header_overflow_impossible :
    ¬ ∃ (zmq : ZMQContext) (ioframe : AVFrame),
      IntValues zmq ioframe ∧ 256 < (header_text zmq ioframe).length + 1 := by
  rintro ⟨zmq, ioframe, hv, h⟩
  have := header_text_length_le zmq ioframe hv
  omega

/-! ## The exchange: proofs -/

theorem size_t_lt (x : Int) : size_t x < 18446744073709551616 := by
  unfold size_t
  omega

theorem size_t_of_nonneg (x : Int) (h0 : 0 ≤ x) (h1 : x < 18446744073709551616) :
    size_t x = x.toNat := by
  unfold size_t
  rw [Int.emod_eq_of_lt h0 h1]

theorem size_t_natCast (k : Nat) (h : k < 18446744073709551616) : size_t (k : Int) = k := by
  unfold size_t
  omega

theorem int32_of_isInt (x : Int) (h : IsInt x) : int32 x = x := by
  obtain ⟨h1, h2⟩ := h
  unfold int32
  omega

theorem size_t_inj (x y : Int) (hx : IsInt x) (hy : IsInt y) (h : size_t x = size_t y) :
    x = y := by
  obtain ⟨h1, h2⟩ := hx
  obtain ⟨h3, h4⟩ := hy
  unfold size_t at h
  omega

theorem plane_datasize_eq_bytes (zmq : ZMQContext) (ioframe : AVFrame) (plane : Nat)
    (h0 : 0 ≤ plane_bytes zmq ioframe plane) (h1 : plane_bytes zmq ioframe plane ≤ 2147483647) :
    plane_datasize zmq ioframe plane = (plane_bytes zmq ioframe plane).toNat := by
  unfold plane_datasize
  have hc : zmq.planeheight plane * ioframe.linesize.getD plane 0
      = plane_bytes zmq ioframe plane := by
    unfold plane_bytes; ring
  simp only [hc]
  rw [int32_of_isInt _ ⟨by omega, h1⟩, size_t_of_nonneg _ h0 (by omega)]

theorem plane_datasize_congr (zmq : ZMQContext) (f g : AVFrame) (plane : Nat)
    (h : f.linesize = g.linesize) : plane_datasize zmq f plane = plane_datasize zmq g plane := by
  simp [plane_datasize, h]

theorem recv_store_linesize (e : Env) (ioframe : AVFrame) (plane len : Nat) :
    (recv_store e ioframe plane len).linesize = ioframe.linesize := by
  unfold recv_store
  split
  · rfl
  · split <;> rfl

/-- The send loop succeeds exactly when every plane send returns the size asked for. -/
theorem send_planes_true (e : Env) (zmq : ZMQContext) (ioframe : AVFrame) (n : Nat)
    (l : List Nat) (h : ∀ p ∈ l, send_ok e zmq ioframe p) :
    send_planes e zmq ioframe n l = (l.map (send_event e zmq ioframe n), true) := by
  induction l with
  | nil => rfl
  | cons p t ih =>
    have hp : size_t (e.send_plane_ret p) = plane_datasize zmq ioframe p :=
      h p (List.mem_cons_self _ _)
    have ih' := ih (fun q hq => h q (List.mem_cons_of_mem _ hq))
    simp [send_planes, hp, ih', send_event]

theorem send_planes_false (e : Env) (zmq : ZMQContext) (ioframe : AVFrame) (n : Nat)
    (l : List Nat) (h : ∃ p ∈ l, ¬ send_ok e zmq ioframe p) :
    (send_planes e zmq ioframe n l).2 = false := by
  induction l with
  | nil => simp at h
  | cons p t ih =>
    by_cases hp : size_t (e.send_plane_ret p) = plane_datasize zmq ioframe p
    · obtain ⟨q, hq, hnq⟩ := h
      have hq' : q ∈ t := by
        rcases List.mem_cons.mp hq with rfl | hq'
        · exact absurd hp hnq
        · exact hq'
      simp [send_planes, hp, ih ⟨q, hq', hnq⟩]
    · simp [send_planes, hp]

theorem send_planes_quiet (e : Env) (zmq : ZMQContext) (ioframe : AVFrame) (n : Nat)
    (l : List Nat) :
    forwarded (send_planes e zmq ioframe n l).1 = [] ∧
      recv_calls (send_planes e zmq ioframe n l).1 = [] ∧
      more_flags (send_planes e zmq ioframe n l).1 = [] ∧
      ∀ w, free_count w (send_planes e zmq ioframe n l).1 = 0 := by
  induction l with
  | nil => simp [send_planes, forwarded, recv_calls, more_flags, free_count]
  | cons p t ih =>
    obtain ⟨i1, i2, i3, i4⟩ := ih
    by_cases hp : size_t (e.send_plane_ret p) = plane_datasize zmq ioframe p
    · simp only [forwarded, recv_calls, more_flags, free_count] at i1 i2 i3 i4
      simp [send_planes, hp, forwarded, recv_calls, more_flags, free_count, i1, i2, i3, i4]
    · simp [send_planes, hp, forwarded, recv_calls, more_flags, free_count]

theorem recv_all_linesize (e : Env) (zmq : ZMQContext) (l : List Nat) (f : AVFrame) :
    (recv_all e zmq l f).linesize = f.linesize := by
  induction l generalizing f with
  | nil => rfl
  | cons p t ih =>
    simp only [recv_all, List.foldl_cons] at ih ⊢
    rw [ih, recv_store_linesize]

/-- A round of the receive loop in which every check passes goes on to the next plane. -/
theorem recv_planes_cons_ok (e : Env) (zmq : ZMQContext) (n p : Nat) (t : List Nat)
    (f : AVFrame) (h : recv_ok e zmq f n p) :
    recv_planes e zmq n (p :: t) f
      = (recv_events e zmq f p
          ++ (recv_planes e zmq n t (recv_store e f p (plane_datasize zmq f p))).1,
        (recv_planes e zmq n t (recv_store e f p (plane_datasize zmq f p))).2) := by
  obtain ⟨h1, h2, h3⟩ := h
  show (if size_t (e.recv_ret p) ≠ plane_datasize zmq f p then _
    else if e.getsockopt_ret p = -1 then _
    else if e.hasmore p ≠ (if (p : Int) ≠ (n : Int) - 1 then 1 else 0) then _ else _) = _
  rw [if_neg (not_not.mpr h1), if_neg h2, if_neg (not_not.mpr h3)]
  rfl

/-- A round of the receive loop in which a check fails jumps to `err`: nothing is forwarded
or freed in the loop, and the plane is the last one received. -/
theorem recv_planes_cons_fail (e : Env) (zmq : ZMQContext) (n p : Nat) (t : List Nat)
    (f : AVFrame) (h : ¬ recv_ok e zmq f n p) :
    (recv_planes e zmq n (p :: t) f).2 = none ∧
      recv_calls (recv_planes e zmq n (p :: t) f).1 = [p] ∧
      forwarded (recv_planes e zmq n (p :: t) f).1 = [] ∧
      sent_parts (recv_planes e zmq n (p :: t) f).1 = [] ∧
      accepted_flags (recv_planes e zmq n (p :: t) f).1 = [] ∧
      ∀ w, free_count w (recv_planes e zmq n (p :: t) f).1 = 0 := by
  show (fun r : List Event × Option AVFrame => r.2 = none ∧ recv_calls r.1 = [p] ∧
      forwarded r.1 = [] ∧ sent_parts r.1 = [] ∧ accepted_flags r.1 = [] ∧
      ∀ w, free_count w r.1 = 0)
    (if size_t (e.recv_ret p) ≠ plane_datasize zmq f p then _
    else if e.getsockopt_ret p = -1 then _
    else if e.hasmore p ≠ (if (p : Int) ≠ (n : Int) - 1 then 1 else 0) then _ else _)
  by_cases h1 : size_t (e.recv_ret p) = plane_datasize zmq f p
  · rw [if_neg (not_not.mpr h1)]
    by_cases h2 : e.getsockopt_ret p = -1
    · rw [if_pos h2]
      simp [recv_calls, forwarded, sent_parts, accepted_flags, free_count]
    · rw [if_neg h2]
      by_cases h3 : e.hasmore p = (if (p : Int) ≠ (n : Int) - 1 then 1 else 0)
      · exact absurd ⟨h1, h2, h3⟩ h
      · rw [if_pos h3]
        simp [recv_calls, forwarded, sent_parts, accepted_flags, free_count]
  · rw [if_pos h1]
    simp [recv_calls, forwarded, sent_parts, accepted_flags, free_count]

theorem recv_ok_congr (e : Env) (zmq : ZMQContext) (f g : AVFrame) (n p : Nat)
    (h : f.linesize = g.linesize) : recv_ok e zmq f n p ↔ recv_ok e zmq g n p := by
  unfold recv_ok
  rw [plane_datasize_congr zmq f g p h]

/-- The receive loop reaches its end when every check passes for every plane. -/
theorem recv_planes_some (e : Env) (zmq : ZMQContext) (ioframe : AVFrame) (n : Nat)
    (l : List Nat) (h : ∀ p ∈ l, recv_ok e zmq ioframe n p) :
    ∀ f : AVFrame, f.linesize = ioframe.linesize →
      recv_planes e zmq n l f
        = (l.flatMap (recv_events e zmq ioframe), some (recv_all e zmq l f)) := by
  induction l with
  | nil => intro f _; rfl
  | cons p t ih =>
    intro f hf
    have hok : recv_ok e zmq f n p :=
      (recv_ok_congr e zmq f ioframe n p hf).mpr (h p (List.mem_cons_self _ _))
    have ih' := ih (fun q hq => h q (List.mem_cons_of_mem _ hq))
      (recv_store e f p (plane_datasize zmq f p)) (by rw [recv_store_linesize, hf])
    rw [recv_planes_cons_ok e zmq n p t f hok, ih']
    simp [recv_events, recv_all, plane_datasize_congr zmq f ioframe p hf]

theorem recv_planes_none (e : Env) (zmq : ZMQContext) (ioframe : AVFrame) (n : Nat)
    (l : List Nat) (h : ∃ p ∈ l, ¬ recv_ok e zmq ioframe n p) :
    ∀ f : AVFrame, f.linesize = ioframe.linesize → (recv_planes e zmq n l f).2 = none := by
  induction l with
  | nil => simp at h
  | cons p t ih =>
    intro f hf
    by_cases hp : recv_ok e zmq f n p
    · obtain ⟨q, hq, hnq⟩ := h
      have hq' : q ∈ t := by
        rcases List.mem_cons.mp hq with rfl | hq'
        · exact absurd ((recv_ok_congr e zmq f ioframe n q hf).mp hp) hnq
        · exact hq'
      rw [recv_planes_cons_ok e zmq n p t f hp]
      exact ih ⟨q, hq', hnq⟩ _ (by rw [recv_store_linesize, hf])
    · exact (recv_planes_cons_fail e zmq n p t f hp).1

theorem recv_planes_quiet (e : Env) (zmq : ZMQContext) (n : Nat) (l : List Nat) :
    ∀ f : AVFrame, forwarded (recv_planes e zmq n l f).1 = [] ∧
      sent_parts (recv_planes e zmq n l f).1 = [] ∧
      accepted_flags (recv_planes e zmq n l f).1 = [] ∧
      ∀ w, free_count w (recv_planes e zmq n l f).1 = 0 := by
  induction l with
  | nil => intro f; simp [recv_planes, forwarded, sent_parts, accepted_flags, free_count]
  | cons p t ih =>
    intro f
    by_cases hp : recv_ok e zmq f n p
    · obtain ⟨i1, i2, i3, i4⟩ := ih (recv_store e f p (plane_datasize zmq f p))
      rw [recv_planes_cons_ok e zmq n p t f hp]
      simp only [forwarded, sent_parts, accepted_flags, free_count] at i1 i2 i3 i4
      simp [forwarded, sent_parts, accepted_flags, free_count, recv_events, i1, i2, i3, i4]
    · obtain ⟨_, _, j1, j2, j3, j4⟩ := recv_planes_cons_fail e zmq n p t f hp
      exact ⟨j1, j2, j3, j4⟩

/-- After a size mismatch at a plane the loop has jumped to `err`, and no plane after it
was received. -/
theorem recv_planes_stops (e : Env) (zmq : ZMQContext) (ioframe : AVFrame) (n p : Nat)
    (hp : size_t (e.recv_ret p) ≠ plane_datasize zmq ioframe p) :
    ∀ (k s : Nat) (f : AVFrame), f.linesize = ioframe.linesize → s ≤ p → p < s + k →
      (recv_planes e zmq n (List.range' s k) f).2 = none ∧
        ∀ q ∈ recv_calls (recv_planes e zmq n (List.range' s k) f).1, q ≤ p := by
  intro k
  induction k with
  | zero => intro s f _ h1 h2; omega
  | succ k ih =>
    intro s f hf h1 h2
    rw [List.range'_succ]
    by_cases hs : recv_ok e zmq f n s
    · have hsp : s ≠ p := by
        rintro rfl
        exact hp ((recv_ok_congr e zmq f ioframe n s hf).mp hs).1
      have ih' := ih (s + 1) (recv_store e f s (plane_datasize zmq f s))
        (by rw [recv_store_linesize, hf]) (by omega) (by omega)
      rw [recv_planes_cons_ok e zmq n s _ f hs]
      refine ⟨ih'.1, ?_⟩
      intro q hq
      simp only [recv_calls, recv_events, List.cons_append, List.nil_append,
        List.filterMap_cons] at hq
      rcases List.mem_cons.mp hq with rfl | hq'
      · exact h1
      · exact ih'.2 q hq'
    · obtain ⟨j1, j2, _⟩ := recv_planes_cons_fail e zmq n s (List.range' (s + 1) k) f hs
      refine ⟨j1, ?_⟩
      rw [j2]
      intro q hq
      simp at hq
      omega

theorem filter_frame_of_working (e : Env) (zmq : ZMQContext) (inp ioframe : AVFrame)
    (h : working_frame e inp = some ioframe) :
    filter_frame e zmq inp = exchange e zmq ioframe := by
  unfold working_frame at h
  unfold filter_frame
  cases hg : e.get_video_buffer with
  | none => simp [hg] at h
  | some fresh =>
    simp only [hg, Option.map_some', Option.some.injEq] at h
    simp only [h]

/-- The exchange when every send and every check of the receive loop succeeds. -/
theorem exchange_ok (e : Env) (zmq : ZMQContext) (ioframe : AVFrame)
    (hs : sends_succeed e zmq ioframe)
    (hr : ∀ p, p < count_planes ioframe → recv_ok e zmq ioframe (count_planes ioframe) p) :
    exchange e zmq ioframe
      = ⟨e.filter_frame_ret,
          hdr_event e zmq ioframe
            :: (List.range (count_planes ioframe)).map
                (send_event e zmq ioframe (count_planes ioframe))
            ++ (List.range (count_planes ioframe)).flatMap (recv_events e zmq ioframe)
            ++ [Event.frame_free FrameId.input,
                Event.ff_filter_frame
                  (recv_all e zmq (List.range (count_planes ioframe)) ioframe)]⟩ := by
  obtain ⟨h0, h1⟩ := hs
  have hsend := send_planes_true e zmq ioframe (count_planes ioframe)
    (List.range (count_planes ioframe)) (fun p hp => h1 p (List.mem_range.mp hp))
  have hrecv := recv_planes_some e zmq ioframe (count_planes ioframe)
    (List.range (count_planes ioframe)) (fun p hp => hr p (List.mem_range.mp hp)) ioframe rfl
  unfold exchange
  simp only [h0, if_false, hsend, hrecv, hdr_event]
  simp

/-- The exchange when a send or a check of the receive loop fails: the external error, no
frame forwarded, both frames freed once. -/
theorem exchange_fail (e : Env) (zmq : ZMQContext) (ioframe : AVFrame)
    (h : ¬ (sends_succeed e zmq ioframe ∧
      ∀ p, p < count_planes ioframe → recv_ok e zmq ioframe (count_planes ioframe) p)) :
    (exchange e zmq ioframe).ret = AVERROR_EXTERNAL ∧
      forwarded (exchange e zmq ioframe).trace = [] ∧
      free_count FrameId.input (exchange e zmq ioframe).trace = 1 ∧
      free_count FrameId.ioframe (exchange e zmq ioframe).trace = 1 := by
  have qs := send_planes_quiet e zmq ioframe (count_planes ioframe)
    (List.range (count_planes ioframe))
  have qr := recv_planes_quiet e zmq (count_planes ioframe)
    (List.range (count_planes ioframe)) ioframe
  obtain ⟨s1, _, _, s4⟩ := qs
  obtain ⟨r1, _, _, r4⟩ := qr
  have s4i := s4 FrameId.input
  have s4o := s4 FrameId.ioframe
  have r4i := r4 FrameId.input
  have r4o := r4 FrameId.ioframe
  simp only [forwarded, free_count] at s1 s4i s4o r1 r4i r4o
  unfold exchange
  by_cases h0 : e.send_hdr_ret = -1
  · simp [h0, forwarded, free_count]
  · by_cases h1 : ∀ p, p < count_planes ioframe → send_ok e zmq ioframe p
    · have hsend := send_planes_true e zmq ioframe (count_planes ioframe)
        (List.range (count_planes ioframe)) (fun p hp => h1 p (List.mem_range.mp hp))
      have h2 : ∃ p ∈ List.range (count_planes ioframe),
          ¬ recv_ok e zmq ioframe (count_planes ioframe) p := by
        by_contra hc
        push_neg at hc
        exact h ⟨⟨h0, h1⟩, fun p hp => hc p (List.mem_range.mpr hp)⟩
      have hrecv := recv_planes_none e zmq ioframe (count_planes ioframe)
        (List.range (count_planes ioframe)) h2 ioframe rfl
      rw [hsend] at s1 s4i s4o
      simp only [h0, if_false, hsend, hrecv]
      simp [forwarded, free_count, List.count_cons, s1, s4i, s4o, r1, r4i, r4o]
    · have h2 : ∃ p ∈ List.range (count_planes ioframe), ¬ send_ok e zmq ioframe p := by
        push_neg at h1
        obtain ⟨p, hp, hnp⟩ := h1
        exact ⟨p, List.mem_range.mpr hp, hnp⟩
      have hsend := send_planes_false e zmq ioframe (count_planes ioframe)
        (List.range (count_planes ioframe)) h2
      simp only [h0, if_false, hsend, if_true]
      simp [forwarded, free_count, List.count_cons, s1, s4i, s4o]

/-! ### Readings of the trace of a successful exchange -/

theorem readings_sends (e : Env) (zmq : ZMQContext) (ioframe : AVFrame) (n : Nat)
    (l : List Nat) :
    sent_parts (l.map (send_event e zmq ioframe n))
        = l.map (fun p => ((plane_buf ioframe p).take (plane_datasize zmq ioframe p),
            plane_datasize zmq ioframe p,
            if (p : Int) = (n : Int) - 1 then (0 : Int) else ZMQ_SNDMORE)) ∧
      forwarded (l.map (send_event e zmq ioframe n)) = [] ∧
      recv_calls (l.map (send_event e zmq ioframe n)) = [] ∧
      more_flags (l.map (send_event e zmq ioframe n)) = [] := by
  induction l with
  | nil => simp [sent_parts, forwarded, recv_calls, more_flags]
  | cons p t ih =>
    obtain ⟨i1, i2, i3, i4⟩ := ih
    simp only [sent_parts, forwarded, recv_calls, more_flags] at i1 i2 i3 i4 ⊢
    simp [send_event, i1, i2, i3, i4]

theorem accepted_sends (e : Env) (zmq : ZMQContext) (ioframe : AVFrame) (n : Nat)
    (l : List Nat) (h : ∀ p ∈ l, e.send_plane_ret p ≠ -1) :
    accepted_flags (l.map (send_event e zmq ioframe n))
      = l.map (fun p : Nat => if (p : Int) = (n : Int) - 1 then (0 : Int) else ZMQ_SNDMORE) := by
  induction l with
  | nil => simp [accepted_flags]
  | cons p t ih =>
    have hp := h p (List.mem_cons_self _ _)
    have ih' := ih (fun q hq => h q (List.mem_cons_of_mem _ hq))
    simp only [accepted_flags] at ih' ⊢
    simp [send_event, hp, ih']

theorem readings_recvs (e : Env) (zmq : ZMQContext) (ioframe : AVFrame) (l : List Nat) :
    sent_parts (l.flatMap (recv_events e zmq ioframe)) = [] ∧
      accepted_flags (l.flatMap (recv_events e zmq ioframe)) = [] ∧
      forwarded (l.flatMap (recv_events e zmq ioframe)) = [] ∧
      recv_calls (l.flatMap (recv_events e zmq ioframe)) = l := by
  induction l with
  | nil => simp [sent_parts, accepted_flags, forwarded, recv_calls]
  | cons p t ih =>
    obtain ⟨i1, i2, i3, i4⟩ := ih
    simp only [sent_parts, accepted_flags, forwarded, recv_calls] at i1 i2 i3 i4 ⊢
    simp [recv_events, i1, i2, i3, i4]

theorem more_flags_recvs (e : Env) (zmq : ZMQContext) (ioframe : AVFrame) (l : List Nat)
    (h : ∀ p ∈ l, e.getsockopt_ret p ≠ -1) :
    more_flags (l.flatMap (recv_events e zmq ioframe)) = l.map e.hasmore := by
  induction l with
  | nil => simp [more_flags]
  | cons p t ih =>
    have hp := h p (List.mem_cons_self _ _)
    have ih' := ih (fun q hq => h q (List.mem_cons_of_mem _ hq))
    simp only [more_flags] at ih' ⊢
    simp [recv_events, hp, ih']

theorem flags_of_range (m : Nat) :
    (List.range (m + 1)).map
        (fun p : Nat => if (p : Int) = ((m + 1 : Nat) : Int) - 1 then (0 : Int) else ZMQ_SNDMORE)
      = List.replicate m ZMQ_SNDMORE ++ [0] := by
  rw [List.range_succ, List.map_append]
  congr 1
  · rw [List.eq_replicate_iff]
    refine ⟨by simp, ?_⟩
    intro b hb
    obtain ⟨p, hp, rfl⟩ := List.mem_map.mp hb
    have hp' := List.mem_range.mp hp
    rw [if_neg]
    push_cast
    omega
  · simp

/-! ## The request (C2) -/

/-- A frame has an active plane exactly when `data[0]` is not NULL and `linesize[0]` is not
zero, which holds for every frame the buffer pool supplies. -/
theorem count_planes_pos_iff (f : AVFrame) :
    1 ≤ count_planes f ↔ (f.data.getD 0 none).isSome = true ∧ f.linesize.getD 0 0 ≠ 0 := by
  unfold count_planes
  constructor
  · intro h
    by_contra hc
    have h0 : count_planes_loop f 5 0 = 0 := by
      rw [count_planes_loop, if_neg]
      rintro ⟨_, h1, h2⟩
      exact hc ⟨h1, h2⟩
    omega
  · rintro ⟨h1, h2⟩
    have hmono : ∀ fuel n, n ≤ count_planes_loop f fuel n := by
      intro fuel
      induction fuel with
      | zero => intro n; simp [count_planes_loop]
      | succ k ih =>
        intro n
        unfold count_planes_loop
        split
        · exact Nat.le_trans (Nat.le_succ n) (ih (n + 1))
        · exact Nat.le_refl n
    have h5 : count_planes_loop f 5 0 = count_planes_loop f 4 1 := by
      rw [count_planes_loop, if_pos ⟨by omega, h1, h2⟩]
    rw [h5]
    exact hmono 4 1

theorem forwarded_ok_trace (e : Env) (zmq : ZMQContext) (ioframe out : AVFrame) (n : Nat) :
    forwarded (hdr_event e zmq ioframe
        :: (List.range n).map (send_event e zmq ioframe n)
        ++ (List.range n).flatMap (recv_events e zmq ioframe)
        ++ [Event.frame_free FrameId.input, Event.ff_filter_frame out]) = [out] := by
  obtain ⟨_, s2, _, _⟩ := readings_sends e zmq ioframe n (List.range n)
  obtain ⟨_, _, r3, _⟩ := readings_recvs e zmq ioframe (List.range n)
  simp only [forwarded] at s2 r3 ⊢
  simp [hdr_event, List.filterMap_append, s2, r3]

/-- C3: for a working frame with at least one active plane (plane sizes non-negative C
`int`s) whose request was sent, and a reply of at least one part whose parts have the sizes
of their planes, filter_frame returns AVERROR_EXTERNAL and forwards nothing when the number
of parts differs from the plane count, and forwards one frame when it equals it. -/
theorem reply_part_count (e : Env) (zmq : ZMQContext) (inp ioframe : AVFrame)
    (reply : List (List Nat))
    (hw : working_frame e inp = some ioframe) (hn : 1 ≤ count_planes ioframe)
    (hs : sends_succeed e zmq ioframe) (hfit : SizesFit zmq ioframe) (hne : reply ≠ [])
    (hsz : ∀ k, k < reply.length → k < count_planes ioframe →
      ((reply.getD k []).length : Int) = plane_bytes zmq ioframe k) :
    (reply.length ≠ count_planes ioframe →
        (filter_frame (reply_env e reply) zmq inp).ret = AVERROR_EXTERNAL ∧
          forwarded (filter_frame (reply_env e reply) zmq inp).trace = []) ∧
      (reply.length = count_planes ioframe →
        ∃ out, forwarded (filter_frame (reply_env e reply) zmq inp).trace = [out]) := by
  have hw' : working_frame (reply_env e reply) inp = some ioframe := hw
  have hs' : sends_succeed (reply_env e reply) zmq ioframe := hs
  have hlen : 1 ≤ reply.length := by
    cases reply with
    | nil => exact absurd rfl hne
    | cons a t => simp
  rw [filter_frame_of_working _ zmq inp ioframe hw']
  constructor
  · intro hd
    have hbad : ¬ (sends_succeed (reply_env e reply) zmq ioframe ∧
        ∀ p, p < count_planes ioframe →
          recv_ok (reply_env e reply) zmq ioframe (count_planes ioframe) p) := by
      rintro ⟨_, hr⟩
      rcases Nat.lt_or_gt_of_ne hd with hlt | hgt
      · have h3 := (hr (reply.length - 1) (by omega)).2.2
        have hh : (reply_env e reply).hasmore (reply.length - 1) = 0 := by
          show (if reply.length - 1 + 1 < reply.length then (1 : Int) else 0) = 0
          rw [if_neg (by omega)]
        rw [hh, if_pos (by omega)] at h3
        exact absurd h3 (by decide)
      · have h3 := (hr (count_planes ioframe - 1) (by omega)).2.2
        have hh : (reply_env e reply).hasmore (count_planes ioframe - 1) = 1 := by
          show (if count_planes ioframe - 1 + 1 < reply.length then (1 : Int) else 0) = 1
          rw [if_pos (by omega)]
        rw [hh, if_neg (by omega)] at h3
        exact absurd h3 (by decide)
    have hf := exchange_fail (reply_env e reply) zmq ioframe hbad
    exact ⟨hf.1, hf.2.1⟩
  · intro heq
    have hr : ∀ p, p < count_planes ioframe →
        recv_ok (reply_env e reply) zmq ioframe (count_planes ioframe) p := by
      intro p hp
      obtain ⟨h0, h1⟩ := hfit p hp
      have hl := hsz p (by omega) hp
      refine ⟨?_, ?_, ?_⟩
      · show size_t ((reply.getD p []).length : Int) = plane_datasize zmq ioframe p
        rw [plane_datasize_eq_bytes zmq ioframe p h0 h1, size_t_natCast _ (by omega)]
        omega
      · show (0 : Int) ≠ -1
        decide
      · show (if p + 1 < reply.length then (1 : Int) else 0)
          = if (p : Int) ≠ (count_planes ioframe : Int) - 1 then 1 else 0
        by_cases hc : p + 1 < reply.length
        · rw [if_pos hc, if_pos (by omega)]
        · rw [if_neg hc, if_neg (by omega)]
    rw [exchange_ok _ zmq ioframe hs' hr]
    exact ⟨_, forwarded_ok_trace _ zmq ioframe _ _⟩

/-- Witness for the part count of C3 at the two-plane example: a reply that ends after one
part and a reply of three parts are refused, a reply of two parts is forwarded. -/
theorem reply_part_count_witness :
    (working_frame (env_small frame_small) frame_small = some frame_small ∧
      1 ≤ count_planes frame_small ∧
      sends_succeed (env_small frame_small) zmq_small frame_small ∧
      SizesFit zmq_small frame_small) ∧
    (reply_short ≠ [] ∧
      (∀ k, k < reply_short.length → k < count_planes frame_small →
        ((reply_short.getD k []).length : Int) = plane_bytes zmq_small frame_small k) ∧
      reply_short.length ≠ count_planes frame_small ∧
      (filter_frame (reply_env (env_small frame_small) reply_short) zmq_small
          frame_small).ret = AVERROR_EXTERNAL ∧
      forwarded (filter_frame (reply_env (env_small frame_small) reply_short) zmq_small
          frame_small).trace = []) ∧
    (reply_long ≠ [] ∧
      (∀ k, k < reply_long.length → k < count_planes frame_small →
        ((reply_long.getD k []).length : Int) = plane_bytes zmq_small frame_small k) ∧
      reply_long.length ≠ count_planes frame_small ∧
      (filter_frame (reply_env (env_small frame_small) reply_long) zmq_small
          frame_small).ret = AVERROR_EXTERNAL ∧
      forwarded (filter_frame (reply_env (env_small frame_small) reply_long) zmq_small
          frame_small).trace = []) ∧
    (reply_small ≠ [] ∧
      (∀ k, k < reply_small.length → k < count_planes frame_small →
        ((reply_small.getD k []).length : Int) = plane_bytes zmq_small frame_small k) ∧
      reply_small.length = count_planes frame_small ∧
      ∃ out, forwarded (filter_frame (reply_env (env_small frame_small) reply_small)
        zmq_small frame_small).trace = [out]) :=
  ⟨⟨by decide, by decide, by decide, by decide⟩,
    ⟨by decide, by decide, by decide,
      (reply_part_count (env_small frame_small) zmq_small frame_small frame_small reply_short
        (by decide) (by decide) (by decide) (by decide) (by decide) (by decide)).1
        (by decide)⟩,
    ⟨by decide, by decide, by decide,
      (reply_part_count (env_small frame_small) zmq_small frame_small frame_small reply_long
        (by decide) (by decide) (by decide) (by decide) (by decide) (by decide)).1
        (by decide)⟩,
    ⟨by decide, by decide, by decide,
      (reply_part_count (env_small frame_small) zmq_small frame_small frame_small reply_small
        (by decide) (by decide) (by decide) (by decide) (by decide) (by decide)).2
        (by decide)⟩⟩

/-! ## A part of the wrong size (C4) -/

theorem exchange_recv_calls (e : Env) (zmq : ZMQContext) (ioframe : AVFrame) (p : Nat)
    (hp : p < count_planes ioframe)
    (hbad : size_t (e.recv_ret p) ≠ plane_datasize zmq ioframe p) :
    ∀ q ∈ recv_calls (exchange e zmq ioframe).trace, q ≤ p := by
  have hstop := recv_planes_stops e zmq ioframe (count_planes ioframe) p hbad
    (count_planes ioframe) 0 ioframe rfl (Nat.zero_le _) (by omega)
  rw [← List.range_eq_range'] at hstop
  obtain ⟨_, s2, _, _⟩ := send_planes_quiet e zmq ioframe (count_planes ioframe)
    (List.range (count_planes ioframe))
  simp only [recv_calls] at s2 hstop
  unfold exchange
  by_cases h0 : e.send_hdr_ret = -1
  · simp [h0, recv_calls]
  · by_cases h1 : (send_planes e zmq ioframe (count_planes ioframe)
        (List.range (count_planes ioframe))).2 = false
    · simp only [h0, if_false, h1, if_true]
      simp [recv_calls, List.filterMap_append, s2]
    · simp only [h0, if_false, h1, hstop.1]
      intro q hq
      apply hstop.2 q
      simpa [recv_calls, List.filterMap_append, s2] using hq

/-- C4: when the receive for an active plane `p` returns a C `int` different from
`stride * height` (itself a C `int`), filter_frame returns AVERROR_EXTERNAL, calls
`zmq_recv` for no plane after `p`, and forwards no frame. -/
theorem recv_size_mismatch (e : Env) (zmq : ZMQContext) (inp ioframe : AVFrame) (p : Nat)
    (hw : working_frame e inp = some ioframe) (hp : p < count_planes ioframe)
    (hr : IsInt (e.recv_ret p)) (hb : IsInt (plane_bytes zmq ioframe p))
    (hne : e.recv_ret p ≠ plane_bytes zmq ioframe p) :
    (filter_frame e zmq inp).ret = AVERROR_EXTERNAL ∧
      (∀ q ∈ recv_calls (filter_frame e zmq inp).trace, q ≤ p) ∧
      forwarded (filter_frame e zmq inp).trace = [] := by
  have hbad : size_t (e.recv_ret p) ≠ plane_datasize zmq ioframe p := by
    intro hc
    have hd : plane_datasize zmq ioframe p = size_t (plane_bytes zmq ioframe p) := by
      unfold plane_datasize
      have hm : zmq.planeheight p * ioframe.linesize.getD p 0 = plane_bytes zmq ioframe p := by
        unfold plane_bytes; ring
      simp only [hm]
      rw [int32_of_isInt _ hb]
    rw [hd] at hc
    exact hne (size_t_inj _ _ hr hb hc)
  have hfail : ¬ (sends_succeed e zmq ioframe ∧
      ∀ q, q < count_planes ioframe → recv_ok e zmq ioframe (count_planes ioframe) q) := by
    rintro ⟨_, hall⟩
    exact hbad (hall p hp).1
  rw [filter_frame_of_working e zmq inp ioframe hw]
  have hf := exchange_fail e zmq ioframe hfail
  exact ⟨hf.1, exchange_recv_calls e zmq ioframe p hp hbad, hf.2.1⟩

/-- Witness for the size mismatch of C4: plane 0 of the two-plane example reports the transport
error value -1 in place of 8 bytes. -/
theorem recv_size_mismatch_witness :
    working_frame env_recv_fails frame_small
        = some frame_small ∧
      0 < count_planes frame_small ∧ IsInt (-1) ∧ IsInt (plane_bytes zmq_small frame_small 0) ∧
      (-1 : Int) ≠ plane_bytes zmq_small frame_small 0 ∧
      ((filter_frame env_recv_fails zmq_small
            frame_small).ret = AVERROR_EXTERNAL ∧
        (∀ q ∈ recv_calls (filter_frame env_recv_fails
            zmq_small frame_small).trace, q ≤ 0) ∧
        forwarded (filter_frame env_recv_fails
            zmq_small frame_small).trace = []) :=
  ⟨by decide, by decide, by decide, by decide, by decide,
    recv_size_mismatch env_recv_fails zmq_small
      frame_small frame_small 0 (by decide) (by decide) (by decide) (by decide) (by decide)⟩

/-! ## Round trip (C5) -/

theorem recv_into_echo (buf : List Nat) (len : Nat) :
    recv_into buf len (buf.take len) = buf := by
  unfold recv_into
  rw [List.take_take, Nat.min_self, List.length_take, ← Nat.min_assoc, Nat.min_self]
  by_cases h : len ≤ buf.length
  · rw [Nat.min_eq_left h, List.take_append_drop]
  · rw [Nat.min_eq_right (by omega), List.take_of_length_le (by omega), List.drop_length,
      List.append_nil]

theorem list_set_same {α : Type} (l : List α) (i : Nat) (a : α) (h : l[i]? = some a) :
    l.set i a = l := by
  induction l generalizing i with
  | nil => rfl
  | cons b t ih =>
    cases i with
    | zero =>
      simp only [List.getElem?_cons_zero, Option.some.injEq] at h
      simp [h]
    | succ j =>
      simp only [List.getElem?_cons_succ] at h
      simp [ih j h]

theorem recv_store_echo (e : Env) (f : AVFrame) (p len : Nat)
    (h : e.recv_msg p = (plane_buf f p).take len) : recv_store e f p len = f := by
  unfold recv_store
  split
  · rfl
  · cases hd : f.data.getD p none with
    | none => rfl
    | some buf =>
      have hb : plane_buf f p = buf := by
        unfold plane_buf
        rw [hd]
        rfl
      rw [h, hb]
      simp only [recv_into_echo]
      have hget : f.data[p]? = some (some buf) := by
        rw [List.getD_eq_getElem?_getD] at hd
        cases hq : f.data[p]? with
        | none => simp [hq] at hd
        | some v =>
          simp only [hq, Option.getD_some] at hd
          rw [hd]
      simp only [list_set_same f.data p (some buf) hget]

theorem recv_all_echo (e : Env) (zmq : ZMQContext) (f : AVFrame) (l : List Nat)
    (h : ∀ p ∈ l, e.recv_msg p = (plane_buf f p).take (plane_datasize zmq f p)) :
    recv_all e zmq l f = f := by
  induction l with
  | nil => rfl
  | cons p t ih =>
    have hp := recv_store_echo e f p _ (h p (List.mem_cons_self _ _))
    have ih' := ih (fun q hq => h q (List.mem_cons_of_mem _ hq))
    simp only [recv_all, List.foldl_cons, hp] at ih' ⊢
    exact ih'

theorem request_planes_getD (zmq : ZMQContext) (ioframe : AVFrame) (p : Nat)
    (hp : p < count_planes ioframe) :
    (request_planes zmq ioframe).getD p []
      = (plane_buf ioframe p).take (plane_datasize zmq ioframe p) := by
  unfold request_planes
  rw [List.getD_eq_getElem _ _ (by simpa using hp)]
  simp

/-- C5: for a working frame whose plane buffers hold the bytes of their planes, when every
send succeeds and the reply is the request's plane parts echoed, filter_frame returns what
the downstream stage returns and forwards one frame, whose every active plane starts with
the `stride * height` bytes the working frame held before the exchange. -/
theorem echo_round_trip (e : Env) (zmq : ZMQContext) (inp ioframe : AVFrame)
    (hw : working_frame e inp = some ioframe) (hs : sends_succeed e zmq ioframe)
    (hbuf : BuffersHold zmq ioframe) :
    (filter_frame (reply_env e (request_planes zmq ioframe)) zmq inp).ret = e.filter_frame_ret ∧
      ∃ out, forwarded (filter_frame (reply_env e (request_planes zmq ioframe)) zmq inp).trace
          = [out] ∧
        ∀ p, p < count_planes ioframe →
          (plane_buf out p).take (plane_bytes zmq ioframe p).toNat
            = (plane_buf ioframe p).take (plane_bytes zmq ioframe p).toNat := by
  have hw' : working_frame (reply_env e (request_planes zmq ioframe)) inp = some ioframe := hw
  have hs' : sends_succeed (reply_env e (request_planes zmq ioframe)) zmq ioframe := hs
  have hlen : (request_planes zmq ioframe).length = count_planes ioframe := by
    simp [request_planes]
  have hr : ∀ p, p < count_planes ioframe →
      recv_ok (reply_env e (request_planes zmq ioframe)) zmq ioframe (count_planes ioframe) p := by
    intro p hp
    refine ⟨?_, ?_, ?_⟩
    · show size_t (((request_planes zmq ioframe).getD p []).length : Int)
        = plane_datasize zmq ioframe p
      have hlt : plane_datasize zmq ioframe p < 18446744073709551616 := size_t_lt _
      rw [request_planes_getD zmq ioframe p hp, List.length_take,
        Nat.min_eq_left (hbuf p hp), size_t_natCast _ hlt]
    · show (0 : Int) ≠ -1
      decide
    · show (if p + 1 < (request_planes zmq ioframe).length then (1 : Int) else 0)
        = if (p : Int) ≠ (count_planes ioframe : Int) - 1 then 1 else 0
      rw [hlen]
      by_cases hc : p + 1 < count_planes ioframe
      · rw [if_pos hc, if_pos (by omega)]
      · rw [if_neg hc, if_neg (by omega)]
  have hout : recv_all (reply_env e (request_planes zmq ioframe)) zmq
      (List.range (count_planes ioframe)) ioframe = ioframe := by
    apply recv_all_echo
    intro p hp
    exact request_planes_getD zmq ioframe p (List.mem_range.mp hp)
  rw [filter_frame_of_working _ zmq inp ioframe hw', exchange_ok _ zmq ioframe hs' hr, hout]
  refine ⟨rfl, ioframe, forwarded_ok_trace _ zmq ioframe ioframe _, fun p _ => rfl⟩

/-- Witness for the round trip of C5, at the two-plane example. -/
theorem echo_round_trip_witness :
    working_frame (env_small frame_small) frame_small = some frame_small ∧
      sends_succeed (env_small frame_small) zmq_small frame_small ∧
      BuffersHold zmq_small frame_small ∧
      ((filter_frame (reply_env (env_small frame_small) (request_planes zmq_small frame_small))
            zmq_small frame_small).ret = (env_small frame_small).filter_frame_ret ∧
        ∃ out, forwarded (filter_frame (reply_env (env_small frame_small)
              (request_planes zmq_small frame_small)) zmq_small frame_small).trace = [out] ∧
          ∀ p, p < count_planes frame_small →
            (plane_buf out p).take (plane_bytes zmq_small frame_small p).toNat
              = (plane_buf frame_small p).take (plane_bytes zmq_small frame_small p).toNat) :=
  ⟨by decide, by decide, by decide,
    echo_round_trip (env_small frame_small) zmq_small frame_small frame_small (by decide)
      (by decide) (by decide)⟩

/-! ## Ownership of the frames (C7) -/

/-- Once the working frame is allocated, filter_frame frees the input frame once and either
forwards the working frame once or frees it once. -/
theorem frames_settled_when_allocated (e : Env) (zmq : ZMQContext) (inp ioframe : AVFrame)
    (hw : working_frame e inp = some ioframe) :
    free_count FrameId.input (filter_frame e zmq inp).trace = 1 ∧
      free_count FrameId.ioframe (filter_frame e zmq inp).trace
        + (forwarded (filter_frame e zmq inp).trace).length = 1 := by
  rw [filter_frame_of_working e zmq inp ioframe hw]
  by_cases hall : sends_succeed e zmq ioframe ∧
      ∀ p, p < count_planes ioframe → recv_ok e zmq ioframe (count_planes ioframe) p
  · obtain ⟨hs, hr⟩ := hall
    rw [exchange_ok e zmq ioframe hs hr, forwarded_ok_trace]
    have hc : ∀ (w : FrameId) (l : List Nat),
        List.count (Event.frame_free w)
            (l.map (send_event e zmq ioframe (count_planes ioframe))) = 0 ∧
          List.count (Event.frame_free w) (l.flatMap (recv_events e zmq ioframe)) = 0 := by
      intro w l
      induction l with
      | nil => simp
      | cons p t ih => simp [send_event, recv_events, List.count_cons, ih.1, ih.2]
    simp [free_count, hdr_event, List.count_cons, List.count_append, hc]
  · obtain ⟨_, h2, h3, h4⟩ := exchange_fail e zmq ioframe hall
    rw [h2, h3, h4]
    simp

/-- C7, the failing path: when the buffer pool is exhausted, filter_frame returns
AVERROR(ENOMEM) with an empty trace: the input frame was not freed. -/
theorem alloc_failure_keeps_input :
    working_frame env_nomem frame_small = none ∧
      (filter_frame env_nomem zmq_small frame_small).ret = AVERROR_ENOMEM ∧
      (filter_frame env_nomem zmq_small frame_small).trace = [] ∧
      free_count FrameId.input (filter_frame env_nomem zmq_small frame_small).trace = 0 := by
  decide

/-! ## Geometry (C6) -/

theorem ceil_rshift_eq (a : Int) (b : Nat) (h0 : 0 ≤ a) (h1 : a ≤ 2147483647) :
    AV_CEIL_RSHIFT a b = ⌈(a : ℚ) / 2 ^ b⌉ := by
  have hpos : (0 : Int) < ((2 ^ b : Nat) : Int) := by positivity
  have hq : (-a) >>> b = (-a) / ((2 ^ b : Nat) : Int) := Int.shiftRight_eq_div_pow (-a) b
  have hle : (-a) / ((2 ^ b : Nat) : Int) ≤ 0 := by
    have := Int.ediv_lt_of_lt_mul hpos (show -a < 1 * ((2 ^ b : Nat) : Int) by omega)
    omega
  have hge : -a ≤ (-a) / ((2 ^ b : Nat) : Int) := by
    rw [Int.le_ediv_iff_mul_le hpos]
    nlinarith
  have hfl : ⌊((-a : Int) : ℚ) / ((2 ^ b : Nat) : ℚ)⌋ = (-a) / ((2 ^ b : Nat) : Int) :=
    Rat.floor_intCast_div_natCast (-a) (2 ^ b)
  have hc : ⌈(a : ℚ) / 2 ^ b⌉ = -((-a) / ((2 ^ b : Nat) : Int)) := by
    rw [← hfl]
    have hx : ((-a : Int) : ℚ) / ((2 ^ b : Nat) : ℚ) = -((a : ℚ) / 2 ^ b) := by
      push_cast
      ring
    rw [hx, Int.floor_neg, neg_neg]
  have hi1 : int32 (-a) = -a := by unfold int32; omega
  rw [hc]
  unfold AV_CEIL_RSHIFT
  rw [hi1, hq]
  unfold int32
  omega

/-- C6: for non-negative C `int` dimensions and chroma shifts of at most 30, config_props
stores the ceiling of `width / 2^shiftW` as the width of planes 1 and 2, the ceiling of
`height / 2^shiftH` as their height, and the frame width and height for planes 0 and 3. -/
theorem config_props_geometry (pix_desc : AVPixFmtDescriptor) (max_pixsteps : Nat → Int)
    (w h : Int) (zmq : ZMQContext)
    (hw : 0 ≤ w ∧ w ≤ 2147483647) (hh : 0 ≤ h ∧ h ≤ 2147483647)
    (_hsw : pix_desc.log2_chroma_w ≤ 30) (_hsh : pix_desc.log2_chroma_h ≤ 30) :
    ((config_props pix_desc max_pixsteps w h zmq).1.planewidth 1
        = ⌈(w : ℚ) / 2 ^ pix_desc.log2_chroma_w⌉ ∧
      (config_props pix_desc max_pixsteps w h zmq).1.planewidth 2
        = ⌈(w : ℚ) / 2 ^ pix_desc.log2_chroma_w⌉) ∧
    ((config_props pix_desc max_pixsteps w h zmq).1.planeheight 1
        = ⌈(h : ℚ) / 2 ^ pix_desc.log2_chroma_h⌉ ∧
      (config_props pix_desc max_pixsteps w h zmq).1.planeheight 2
        = ⌈(h : ℚ) / 2 ^ pix_desc.log2_chroma_h⌉) ∧
    ((config_props pix_desc max_pixsteps w h zmq).1.planewidth 0 = w ∧
      (config_props pix_desc max_pixsteps w h zmq).1.planewidth 3 = w) ∧
    ((config_props pix_desc max_pixsteps w h zmq).1.planeheight 0 = h ∧
      (config_props pix_desc max_pixsteps w h zmq).1.planeheight 3 = h) := by
  have cw := ceil_rshift_eq w pix_desc.log2_chroma_w hw.1 hw.2
  have ch := ceil_rshift_eq h pix_desc.log2_chroma_h hh.1 hh.2
  simp only [config_props, Function.update]
  simp [cw, ch]

/-- Witness for the geometry of C6: a 177x145 frame with both chroma shifts 1. -/
theorem config_props_geometry_witness :
    ((0 : Int) ≤ 177 ∧ (177 : Int) ≤ 2147483647) ∧ ((0 : Int) ≤ 145 ∧ (145 : Int) ≤ 2147483647) ∧
      desc_420.log2_chroma_w ≤ 30 ∧ desc_420.log2_chroma_h ≤ 30 ∧
      (((config_props desc_420 (fun _ => 1) 177 145 zmq_small).1.planewidth 1
          = ⌈((177 : Int) : ℚ) / 2 ^ desc_420.log2_chroma_w⌉ ∧
        (config_props desc_420 (fun _ => 1) 177 145 zmq_small).1.planewidth 2
          = ⌈((177 : Int) : ℚ) / 2 ^ desc_420.log2_chroma_w⌉) ∧
      ((config_props desc_420 (fun _ => 1) 177 145 zmq_small).1.planeheight 1
          = ⌈((145 : Int) : ℚ) / 2 ^ desc_420.log2_chroma_h⌉ ∧
        (config_props desc_420 (fun _ => 1) 177 145 zmq_small).1.planeheight 2
          = ⌈((145 : Int) : ℚ) / 2 ^ desc_420.log2_chroma_h⌉) ∧
      ((config_props desc_420 (fun _ => 1) 177 145 zmq_small).1.planewidth 0 = 177 ∧
        (config_props desc_420 (fun _ => 1) 177 145 zmq_small).1.planewidth 3 = 177) ∧
      ((config_props desc_420 (fun _ => 1) 177 145 zmq_small).1.planeheight 0 = 145 ∧
        (config_props desc_420 (fun _ => 1) 177 145 zmq_small).1.planeheight 3 = 145)) :=
  ⟨by decide, by decide, by decide, by decide,
    config_props_geometry desc_420 (fun _ => 1) 177 145 zmq_small (by decide) (by decide)
      (by decide) (by decide)⟩

/-! ## Format selection (C8) -/

theorem query_formats_loop_ok (hwaccel bitstream : Nat) (add_ret : Nat → Int)
    (hadd : ∀ fmt, 0 ≤ add_ret fmt) (descs : List AVPixFmtDescriptor) :
    ∀ (fmt : Nat) (pix_fmts : List Nat),
      query_formats_loop hwaccel bitstream add_ret descs fmt pix_fmts
        = Except.ok (pix_fmts ++ ((descs.enumFrom fmt).filter
            (fun x => !rejected hwaccel bitstream x.2)).map Prod.fst) := by
  induction descs with
  | nil => intro fmt pix_fmts; simp [query_formats_loop]
  | cons d rest ih =>
    intro fmt pix_fmts
    have hn : ¬ add_ret fmt < 0 := by have := hadd fmt; omega
    by_cases hr : rejected hwaccel bitstream d = true
    · simp [query_formats_loop, hr, ih]
    · simp [query_formats_loop, hr, hn, ih]

/-- C8: when ff_add_format does not fail, query_formats hands a list to
ff_set_common_formats, and a format is in it if and only if it has a descriptor in the
catalog that is not flagged hardware accelerated, is not flagged bitstream, and does not
have differing chroma shifts together with first two components in the same plane. -/
theorem query_formats_offers (hwaccel bitstream : Nat) (add_ret : Nat → Int)
    (catalog : List AVPixFmtDescriptor) (hadd : ∀ fmt, 0 ≤ add_ret fmt) :
    ∃ offered, query_formats hwaccel bitstream add_ret catalog = Except.ok offered ∧
      ∀ fmt, fmt ∈ offered ↔ ∃ desc, catalog[fmt]? = some desc ∧
        desc.flags &&& hwaccel = 0 ∧ desc.flags &&& bitstream = 0 ∧
        ¬ (desc.log2_chroma_w ≠ desc.log2_chroma_h ∧
            (desc.comp 0).plane = (desc.comp 1).plane) := by
  refine ⟨_, query_formats_loop_ok hwaccel bitstream add_ret hadd catalog 0 [], ?_⟩
  intro fmt
  simp only [List.nil_append, List.mem_map, List.mem_filter, Prod.exists,
    List.mk_mem_enumFrom_iff_le_and_getElem?_sub]
  constructor
  · rintro ⟨a, d, ⟨⟨_, hget⟩, hrej⟩, rfl⟩
    refine ⟨d, by simpa using hget, ?_⟩
    have hrej' : (d.flags &&& hwaccel = 0 ∧ d.flags &&& bitstream = 0) ∧
        (d.log2_chroma_w = d.log2_chroma_h ∨ ¬ (d.comp 0).plane = (d.comp 1).plane) := by
      simpa [rejected, not_or] using hrej
    refine ⟨hrej'.1.1, hrej'.1.2, ?_⟩
    rintro ⟨hne, heq⟩
    rcases hrej'.2 with h | h
    · exact hne h
    · exact h heq
  · rintro ⟨d, hget, h1, h2, h3⟩
    refine ⟨fmt, d, ⟨⟨Nat.zero_le _, by simpa using hget⟩, ?_⟩, rfl⟩
    simp [rejected, h1, h2]
    tauto

/-- Witness for the format selection of C8, at the catalog of four descriptors. -/
theorem query_formats_offers_witness :
    (∀ fmt : Nat, (0 : Int) ≤ (fun _ => 0) fmt) ∧
      ∃ offered, query_formats 8 4 (fun _ => 0) catalog_small = Except.ok offered ∧
        ∀ fmt, fmt ∈ offered ↔ ∃ desc, catalog_small[fmt]? = some desc ∧
          desc.flags &&& 8 = 0 ∧ desc.flags &&& 4 = 0 ∧
          ¬ (desc.log2_chroma_w ≠ desc.log2_chroma_h ∧
              (desc.comp 0).plane = (desc.comp 1).plane) :=
  ⟨fun _ => le_refl _, query_formats_offers 8 4 (fun _ => 0) catalog_small (fun _ => le_refl _)⟩

/-! ## Alternation of request and reply (C10) -/

theorem send_ret_ne_neg_one (e : Env) (zmq : ZMQContext) (ioframe : AVFrame) (p : Nat)
    (h0 : 0 ≤ plane_bytes zmq ioframe p) (h1 : plane_bytes zmq ioframe p ≤ 2147483647)
    (hs : send_ok e zmq ioframe p) : e.send_plane_ret p ≠ -1 := by
  intro hc
  unfold send_ok at hs
  rw [plane_datasize_eq_bytes zmq ioframe p h0 h1, hc] at hs
  have h2 : size_t (-1) = 18446744073709551615 := by decide
  rw [h2] at hs
  omega

theorem getLast_cons_one (l : List Int) :
    ((1 : Int) :: l).getLast? = some 0 ↔ l.getLast? = some 0 := by
  cases l with
  | nil => simp
  | cons a t => rw [List.getLast?_cons_cons]

/-- The queries recorded by a round of the receive loop in which a check fails. -/
theorem recv_planes_cons_fail_more (e : Env) (zmq : ZMQContext) (n p : Nat) (t : List Nat)
    (f : AVFrame) (h : ¬ recv_ok e zmq f n p) :
    more_flags (recv_planes e zmq n (p :: t) f).1
      = if size_t (e.recv_ret p) = plane_datasize zmq f p ∧ e.getsockopt_ret p ≠ -1
        then [e.hasmore p] else [] := by
  by_cases hc : size_t (e.recv_ret p) = plane_datasize zmq f p ∧ e.getsockopt_ret p ≠ -1
  · rw [if_pos hc]
    obtain ⟨h1, h2⟩ := hc
    have h3 : e.hasmore p ≠ (if (p : Int) ≠ (n : Int) - 1 then 1 else 0) :=
      fun h3 => h ⟨h1, h2, h3⟩
    show more_flags (Prod.fst
      (if size_t (e.recv_ret p) ≠ plane_datasize zmq f p then _
      else if e.getsockopt_ret p = -1 then _
      else if e.hasmore p ≠ (if (p : Int) ≠ (n : Int) - 1 then 1 else 0) then _ else _)) = _
    rw [if_neg (not_not.mpr h1), if_neg h2, if_pos h3]
    simp [more_flags, h2]
  · rw [if_neg hc]
    show more_flags (Prod.fst
      (if size_t (e.recv_ret p) ≠ plane_datasize zmq f p then _
      else if e.getsockopt_ret p = -1 then _
      else if e.hasmore p ≠ (if (p : Int) ≠ (n : Int) - 1 then 1 else 0) then _ else _)) = _
    by_cases h1 : size_t (e.recv_ret p) = plane_datasize zmq f p
    · have h2 : e.getsockopt_ret p = -1 := by
        by_contra h2
        exact hc ⟨h1, h2⟩
      rw [if_neg (not_not.mpr h1), if_pos h2]
      simp [more_flags, h2]
    · rw [if_pos h1]
      simp [more_flags]

/-- The last query of the receive loop reports no further part exactly when the loop ends at
a plane whose receive and query succeed and whose query stores 0. -/
theorem recv_planes_drained (e : Env) (zmq : ZMQContext) (ioframe : AVFrame) (n : Nat) :
    ∀ (k s : Nat) (f : AVFrame), f.linesize = ioframe.linesize → s + k = n →
      ((more_flags (recv_planes e zmq n (List.range' s k) f).1).getLast? = some 0 ↔
        ∃ p, s ≤ p ∧ p < n ∧ (∀ q, s ≤ q → q < p → recv_ok e zmq ioframe n q) ∧
          size_t (e.recv_ret p) = plane_datasize zmq ioframe p ∧
          e.getsockopt_ret p ≠ -1 ∧ e.hasmore p = 0) := by
  intro k
  induction k with
  | zero =>
    intro s f _ hs
    constructor
    · intro h
      simp [recv_planes, more_flags] at h
    · rintro ⟨p, h1, h2, _⟩
      omega
  | succ k ih =>
    intro s f hf hsk
    have hd : plane_datasize zmq f s = plane_datasize zmq ioframe s :=
      plane_datasize_congr zmq f ioframe s hf
    rw [List.range'_succ]
    by_cases hs : recv_ok e zmq f n s
    · have hs' : recv_ok e zmq ioframe n s := (recv_ok_congr e zmq f ioframe n s hf).mp hs
      rw [recv_planes_cons_ok e zmq n s _ f hs]
      have hflags : more_flags (recv_events e zmq f s
            ++ (recv_planes e zmq n (List.range' (s + 1) k)
                (recv_store e f s (plane_datasize zmq f s))).1)
          = e.hasmore s :: more_flags (recv_planes e zmq n (List.range' (s + 1) k)
                (recv_store e f s (plane_datasize zmq f s))).1 := by
        simp [more_flags, recv_events, hs.2.1]
      rw [hflags]
      have ih' := ih (s + 1) (recv_store e f s (plane_datasize zmq f s))
        (by rw [recv_store_linesize, hf]) (by omega)
      by_cases hk : k = 0
      · subst hk
        have h0 : e.hasmore s = 0 := by
          rw [hs'.2.2, if_neg]
          push_cast at hsk ⊢
          omega
        constructor
        · intro _
          exact ⟨s, Nat.le_refl s, by omega, fun q h1 h2 => by omega, hs'.1, hs'.2.1, h0⟩
        · intro _
          simp [recv_planes, more_flags, h0]
      · have h1 : e.hasmore s = 1 := by
          rw [hs'.2.2, if_pos]
          omega
        rw [h1, getLast_cons_one, ih']
        constructor
        · rintro ⟨p, hp1, hp2, hp3, hp4⟩
          refine ⟨p, by omega, hp2, ?_, hp4⟩
          intro q hq1 hq2
          by_cases hqs : q = s
          · rw [hqs]; exact hs'
          · exact hp3 q (by omega) hq2
        · rintro ⟨p, hp1, hp2, hp3, hp4, hp5, hp6⟩
          have hps : p ≠ s := by
            rintro rfl
            rw [h1] at hp6
            exact absurd hp6 (by decide)
          exact ⟨p, by omega, hp2, fun q hq1 hq2 => hp3 q (by omega) hq2, hp4, hp5, hp6⟩
    · have hs' : ¬ recv_ok e zmq ioframe n s :=
        fun hc => hs ((recv_ok_congr e zmq f ioframe n s hf).mpr hc)
      rw [recv_planes_cons_fail_more e zmq n s _ f hs, hd]
      constructor
      · intro h
        by_cases hc : size_t (e.recv_ret s) = plane_datasize zmq ioframe s ∧
            e.getsockopt_ret s ≠ -1
        · rw [if_pos hc] at h
          simp only [List.getLast?_singleton, Option.some.injEq] at h
          exact ⟨s, Nat.le_refl s, by omega, fun q h1 h2 => by omega, hc.1, hc.2, h⟩
        · rw [if_neg hc] at h
          simp at h
      · rintro ⟨p, hp1, hp2, hp3, hp4, hp5, hp6⟩
        have hps : p = s := by
          by_contra hne
          exact hs' (hp3 s (Nat.le_refl s) (by omega))
        subst hps
        rw [if_pos ⟨hp4, hp5⟩]
        simp [hp6]

/-- The flags of the parts accepted by a send loop that fails at a send returning -1 are all
ZMQ_SNDMORE. -/
theorem send_planes_fail_flags (e : Env) (zmq : ZMQContext) (ioframe : AVFrame) (n : Nat)
    (hc : ∀ p, p < n → send_ok e zmq ioframe p ∨ e.send_plane_ret p = -1) :
    ∀ (k s : Nat), s + k = n → (∃ p, s ≤ p ∧ p < n ∧ ¬ send_ok e zmq ioframe p) →
      ∀ x ∈ accepted_flags (send_planes e zmq ioframe n (List.range' s k)).1,
        x = ZMQ_SNDMORE := by
  intro k
  induction k with
  | zero =>
    rintro s hs ⟨p, h1, h2, _⟩
    omega
  | succ k ih =>
    rintro s hs ⟨p, h1, h2, h3⟩
    rw [List.range'_succ]
    by_cases hp : send_ok e zmq ioframe s
    · have hps : p ≠ s := by
        rintro rfl
        exact h3 hp
      have ih' := ih (s + 1) (by omega) ⟨p, by omega, h2, h3⟩
      have hflag : (if (s : Int) = (n : Int) - 1 then (0 : Int) else ZMQ_SNDMORE)
          = ZMQ_SNDMORE := by
        rw [if_neg]
        omega
      have hu : send_planes e zmq ioframe n (s :: List.range' (s + 1) k)
          = (send_event e zmq ioframe n s
              :: (send_planes e zmq ioframe n (List.range' (s + 1) k)).1,
            (send_planes e zmq ioframe n (List.range' (s + 1) k)).2) := by
        unfold send_ok at hp
        simp [send_planes, hp, send_event]
      rw [hu]
      intro x hx
      simp only [accepted_flags, send_event, hflag, List.filterMap_cons] at hx ih'
      by_cases hr : e.send_plane_ret s = -1
      · simp only [hr, if_true] at hx
        exact ih' x hx
      · simp only [hr, if_false, List.mem_cons] at hx
        rcases hx with rfl | hx
        · rfl
        · exact ih' x hx
    · have hr : e.send_plane_ret s = -1 := by
        rcases hc s (by omega) with h | h
        · exact absurd h hp
        · exact h
      unfold send_ok at hp
      have hu : send_planes e zmq ioframe n (s :: List.range' (s + 1) k)
          = ([send_event e zmq ioframe n s, Event.log "Failed to send plane message part"],
            false) := by
        simp [send_planes, hp, send_event]
      rw [hu]
      intro x hx
      simp [accepted_flags, send_event, hr] at hx

/-- The parts accepted and the queries made when every send succeeds, whatever the receive
loop does. -/
theorem exchange_flags (e : Env) (zmq : ZMQContext) (ioframe : AVFrame)
    (hs : sends_succeed e zmq ioframe) :
    accepted_flags (exchange e zmq ioframe).trace
        = accepted_flags (hdr_event e zmq ioframe
            :: (List.range (count_planes ioframe)).map
                (send_event e zmq ioframe (count_planes ioframe))) ∧
      more_flags (exchange e zmq ioframe).trace
        = more_flags (recv_planes e zmq (count_planes ioframe)
            (List.range (count_planes ioframe)) ioframe).1 := by
  obtain ⟨h0, h1⟩ := hs
  have hsend := send_planes_true e zmq ioframe (count_planes ioframe)
    (List.range (count_planes ioframe)) (fun p hp => h1 p (List.mem_range.mp hp))
  obtain ⟨_, _, r3, _⟩ := recv_planes_quiet e zmq (count_planes ioframe)
    (List.range (count_planes ioframe)) ioframe
  obtain ⟨_, _, _, s4⟩ := readings_sends e zmq ioframe (count_planes ioframe)
    (List.range (count_planes ioframe))
  simp only [accepted_flags, more_flags] at r3 s4
  unfold exchange
  simp only [h0, if_false, hsend]
  cases hr : (recv_planes e zmq (count_planes ioframe)
      (List.range (count_planes ioframe)) ioframe).2 with
  | none =>
    constructor
    · simp [accepted_flags, hdr_event, List.filterMap_append, r3, h0]
    · simp [more_flags, List.filterMap_append, s4]
  | some out =>
    constructor
    · simp [accepted_flags, hdr_event, List.filterMap_append, r3, h0]
    · simp [more_flags, List.filterMap_append, s4]

/-- C10 (as corrected): for a working frame with at least one active plane whose plane sizes
are non-negative C `int`s, (1) whenever every send of the call succeeded, the request has
been completed, whether or not the receive loop then fails; (2) when the header was
accepted, every plane send returns the size asked for or -1, and a plane send fails, the
request is left unterminated; (3) when every send succeeded, the reply has been read to its
end (the last successful RCVMORE query reported no further part) exactly when the receive
loop ended at a plane whose receive and query succeeded with the query reporting no further
part, all earlier planes having passed their checks; (4) whenever a frame is forwarded, the
request has been completed, a receive was made for every plane in ascending order, and the
reply has been read to its end. -/
theorem exchange_alternation (e : Env) (zmq : ZMQContext) (inp ioframe : AVFrame)
    (hw : working_frame e inp = some ioframe) (hn : 1 ≤ count_planes ioframe)
    (hfit : SizesFit zmq ioframe) :
    (sends_succeed e zmq ioframe → request_completed (filter_frame e zmq inp).trace) ∧
    (e.send_hdr_ret ≠ -1 →
      (∀ p, p < count_planes ioframe → send_ok e zmq ioframe p ∨ e.send_plane_ret p = -1) →
      (∃ p, p < count_planes ioframe ∧ ¬ send_ok e zmq ioframe p) →
      ¬ request_completed (filter_frame e zmq inp).trace) ∧
    (sends_succeed e zmq ioframe →
      (reply_drained (filter_frame e zmq inp).trace ↔
        ∃ p, p < count_planes ioframe ∧
          (∀ q, q < p → recv_ok e zmq ioframe (count_planes ioframe) q) ∧
          size_t (e.recv_ret p) = plane_datasize zmq ioframe p ∧
          e.getsockopt_ret p ≠ -1 ∧ e.hasmore p = 0)) ∧
    (forwarded (filter_frame e zmq inp).trace ≠ [] →
      request_completed (filter_frame e zmq inp).trace ∧
        recv_calls (filter_frame e zmq inp).trace = List.range (count_planes ioframe) ∧
        reply_drained (filter_frame e zmq inp).trace) := by
  rw [filter_frame_of_working e zmq inp ioframe hw]
  obtain ⟨m, hm⟩ : ∃ m, count_planes ioframe = m + 1 := ⟨count_planes ioframe - 1, by omega⟩
  have hA : sends_succeed e zmq ioframe → request_completed (exchange e zmq ioframe).trace := by
    intro hs
    have hacc := accepted_sends e zmq ioframe (count_planes ioframe)
      (List.range (count_planes ioframe)) (fun p hp => by
        have hp' := List.mem_range.mp hp
        exact send_ret_ne_neg_one e zmq ioframe p (hfit p hp').1 (hfit p hp').2 (hs.2 p hp'))
    unfold request_completed
    rw [(exchange_flags e zmq ioframe hs).1]
    simp only [accepted_flags] at hacc ⊢
    simp only [List.filterMap_cons, hdr_event, hs.1, if_false, hacc]
    rw [hm, flags_of_range m, ← List.cons_append]
    exact List.getLast?_concat _
  have hC : sends_succeed e zmq ioframe →
      (reply_drained (exchange e zmq ioframe).trace ↔
        ∃ p, p < count_planes ioframe ∧
          (∀ q, q < p → recv_ok e zmq ioframe (count_planes ioframe) q) ∧
          size_t (e.recv_ret p) = plane_datasize zmq ioframe p ∧
          e.getsockopt_ret p ≠ -1 ∧ e.hasmore p = 0) := by
    intro hs
    unfold reply_drained
    rw [(exchange_flags e zmq ioframe hs).2, List.range_eq_range',
      recv_planes_drained e zmq ioframe (count_planes ioframe) (count_planes ioframe) 0
        ioframe rfl (by omega)]
    constructor
    · rintro ⟨p, _, h2, h3, h4⟩
      exact ⟨p, h2, fun q hq => h3 q (Nat.zero_le q) hq, h4⟩
    · rintro ⟨p, h2, h3, h4⟩
      exact ⟨p, Nat.zero_le p, h2, fun q _ hq => h3 q hq, h4⟩
  refine ⟨hA, ?_, hC, ?_⟩
  · intro h0 hc hbad hreq
    have hfalse := send_planes_false e zmq ioframe (count_planes ioframe)
      (List.range (count_planes ioframe)) (by
        obtain ⟨p, hp, hnp⟩ := hbad
        exact ⟨p, List.mem_range.mpr hp, hnp⟩)
    have hall := send_planes_fail_flags e zmq ioframe (count_planes ioframe) hc
      (count_planes ioframe) 0 (by omega) (by
        obtain ⟨p, hp, hnp⟩ := hbad
        exact ⟨p, Nat.zero_le p, hp, hnp⟩)
    rw [← List.range_eq_range'] at hall
    unfold request_completed at hreq
    have hmem := List.mem_of_getLast?_eq_some hreq
    have hx : (0 : Int) = ZMQ_SNDMORE := by
      unfold exchange at hmem
      simp only [h0, if_false, hfalse, if_true] at hmem
      simp only [accepted_flags, List.filterMap_cons, List.filterMap_append, List.cons_append,
        h0, if_false, List.filterMap_nil, List.append_nil, List.mem_cons] at hmem hall
      rcases hmem with h | h
      · exact h
      · exact hall 0 h
    exact absurd hx (by decide)
  · intro hf
    by_cases hall : sends_succeed e zmq ioframe ∧
        ∀ p, p < count_planes ioframe → recv_ok e zmq ioframe (count_planes ioframe) p
    · obtain ⟨hs, hr⟩ := hall
      refine ⟨hA hs, ?_, (hC hs).mpr ?_⟩
      · rw [exchange_ok e zmq ioframe hs hr]
        obtain ⟨_, _, s3, _⟩ := readings_sends e zmq ioframe (count_planes ioframe)
          (List.range (count_planes ioframe))
        obtain ⟨_, _, _, r4⟩ := readings_recvs e zmq ioframe
          (List.range (count_planes ioframe))
        simp only [recv_calls] at s3 r4 ⊢
        simp [hdr_event, List.filterMap_append, s3, r4]
      · have hlast := hr m (by omega)
        refine ⟨m, by omega, fun q hq => hr q (by omega), hlast.1, hlast.2.1, ?_⟩
        rw [hlast.2.2, if_neg]
        rw [hm]
        push_cast
        omega
    · exact absurd (exchange_fail e zmq ioframe hall).2.1 hf

/-- Witness for the alternation of C10 at the two-plane example: a call that forwards, a call
whose plane sends fail, a call whose reply has a part after the last plane, and a call whose
reply ends after its first part. -/
theorem exchange_alternation_witness :
    (working_frame (env_small frame_small) frame_small = some frame_small ∧
      working_frame env_send_fails frame_small = some frame_small ∧
      working_frame env_extra_part frame_small = some frame_small ∧
      working_frame (reply_env (env_small frame_small) reply_short) frame_small
        = some frame_small ∧
      1 ≤ count_planes frame_small ∧ SizesFit zmq_small frame_small) ∧
    (sends_succeed (env_small frame_small) zmq_small frame_small ∧
      forwarded (filter_frame (env_small frame_small) zmq_small frame_small).trace ≠ [] ∧
      request_completed (filter_frame (env_small frame_small) zmq_small frame_small).trace ∧
      recv_calls (filter_frame (env_small frame_small) zmq_small frame_small).trace
        = List.range (count_planes frame_small) ∧
      reply_drained (filter_frame (env_small frame_small) zmq_small frame_small).trace) ∧
    (env_send_fails.send_hdr_ret ≠ -1 ∧
      (∀ p, p < count_planes frame_small →
        send_ok env_send_fails zmq_small frame_small p ∨ env_send_fails.send_plane_ret p = -1) ∧
      (∃ p, p < count_planes frame_small ∧ ¬ send_ok env_send_fails zmq_small frame_small p) ∧
      ¬ request_completed (filter_frame env_send_fails zmq_small frame_small).trace) ∧
    (sends_succeed env_extra_part zmq_small frame_small ∧
      request_completed (filter_frame env_extra_part zmq_small frame_small).trace ∧
      ¬ reply_drained (filter_frame env_extra_part zmq_small frame_small).trace) ∧
    (sends_succeed (reply_env (env_small frame_small) reply_short) zmq_small frame_small ∧
      (filter_frame (reply_env (env_small frame_small) reply_short) zmq_small frame_small).ret
        = AVERROR_EXTERNAL ∧
      request_completed
        (filter_frame (reply_env (env_small frame_small) reply_short) zmq_small
          frame_small).trace ∧
      reply_drained
        (filter_frame (reply_env (env_small frame_small) reply_short) zmq_small
          frame_small).trace) :=
  ⟨⟨by decide, by decide, by decide, by decide, by decide, by decide⟩,
    ⟨by decide, by decide,
      (exchange_alternation (env_small frame_small) zmq_small frame_small frame_small
        (by decide) (by decide) (by decide)).2.2.2 (by decide)⟩,
    ⟨by decide, by decide, ⟨0, by decide, by decide⟩,
      (exchange_alternation env_send_fails zmq_small frame_small frame_small
        (by decide) (by decide) (by decide)).2.1 (by decide) (by decide)
        ⟨0, by decide, by decide⟩⟩,
    ⟨by decide,
      (exchange_alternation env_extra_part zmq_small frame_small frame_small
        (by decide) (by decide) (by decide)).1 (by decide),
      fun h => absurd
        (((exchange_alternation env_extra_part zmq_small frame_small frame_small
          (by decide) (by decide) (by decide)).2.2.1 (by decide)).mp h)
        (by decide)⟩,
    ⟨by decide, by decide,
      (exchange_alternation (reply_env (env_small frame_small) reply_short) zmq_small
        frame_small frame_small (by decide) (by decide) (by decide)).1 (by decide),
      ((exchange_alternation (reply_env (env_small frame_small) reply_short) zmq_small
        frame_small frame_small (by decide) (by decide) (by decide)).2.2.1 (by decide)).mpr
        ⟨0, by decide, by decide, by decide, by decide, by decide⟩⟩⟩

/-- C10 as stated fails on the failure paths: when the send of plane 0 fails, filter_frame
returns after the header was accepted with ZMQ_SNDMORE and no part without the flag was
sent; when a further part follows the last plane of the reply, filter_frame returns while
the last query reports an unread part. -/
theorem failed_exchange_left_open :
    ((filter_frame env_send_fails zmq_small frame_small).ret = AVERROR_EXTERNAL ∧
      accepted_flags (filter_frame env_send_fails zmq_small frame_small).trace = [ZMQ_SNDMORE] ∧
      ¬ request_completed (filter_frame env_send_fails zmq_small frame_small).trace) ∧
    ((filter_frame env_extra_part zmq_small frame_small).ret = AVERROR_EXTERNAL ∧
      more_flags (filter_frame env_extra_part zmq_small frame_small).trace = [1, 1] ∧
      ¬ reply_drained (filter_frame env_extra_part zmq_small frame_small).trace) := by
  decide


end ZmqImg
